/-
Verification of the Suite E media-processor core against its specification.

The Python sources are shallowly embedded: every definition below mirrors a
function of the repository (file paths given in the doc comments).  Python
strings are Lean `String`s (character lists where convenient), Python ints are
`Nat`/`Int`, Python floats that only ever participate in arithmetic and
comparisons are `ℚ`, and fallible calls return `Except`/`Option`.
-/
import Mathlib

namespace SuiteE

/-! ## Data model: `MediaFile` (src/core/file_scanner.py, dataclass MediaFile) -/

/-- Mirror of the `MediaFile` dataclass.  EXIF values that the code consults
(`Make`, `Model`, `Software`, the date tags) are strings, so the tag map is
embedded as an association list of strings.  `exif_data = none` mirrors the
Python `None` default. -/
structure MediaFile where
  path : String
  filename : String
  extension : String
  size_bytes : Nat
  media_type : String
  device_type : String
  quality_category : String
  creation_date : Option String := none
  exif_data : Option (List (String × String)) := none
  resolution : Option (List Int) := none
  file_hash : Option String := none
  processing_priority : Nat := 1
  estimated_processing_time : ℚ := 0
  issues : List String := []
  deriving DecidableEq

/-! ## `FileScanner._calculate_priority` (src/core/file_scanner.py:323) -/

/-- Mirror of `FileScanner._calculate_priority`. -/
def calculatePriority (f : MediaFile) : Nat :=
  if f.media_type = "raw" then 1
  else if f.media_type = "video" ∧ f.quality_category = "high" then 2
  else if f.media_type = "photo" ∧ f.quality_category = "high" then 3
  else if f.media_type = "video" then 4
  else 5

/-! ## Python dictionaries with aliasing (shared by the batch-processor model)

`settings` dictionaries are string-keyed; the values the code reads are
strings, numbers, booleans, or references to further mutable dictionaries.
A `ref` holds the address of a dictionary living on an explicit heap, which
is what makes Python's aliasing of nested mutable values expressible. -/

inductive PyVal where
  | str (s : String)
  | int (n : Int)
  | bool (b : Bool)
  | float (q : ℚ)
  | ref (addr : Nat)
  deriving DecidableEq

abbrev PyDict := List (String × PyVal)

/-- `d.get(k)` / `d[k]` lookup (first binding wins; a `PyDict` built by the
operations below never has duplicate keys). -/
def dictGet (d : PyDict) (k : String) : Option PyVal :=
  (d.find? (fun p => p.1 = k)).map (·.2)

/-- `d.get(k, default)`. -/
def dictGetD (d : PyDict) (k : String) (v : PyVal) : PyVal :=
  (dictGet d k).getD v

/-- Python truthiness for the values a settings dict can hold. -/
def truthy : PyVal → Bool
  | .str s => s ≠ ""
  | .int n => n ≠ 0
  | .bool b => b
  | .float q => q ≠ 0
  | .ref _ => true

/-- `d[k] = v`: update in place if the key exists (keeping its position, as
CPython dicts do), otherwise append the new key at the end. -/
def dictSet (d : PyDict) (k : String) (v : PyVal) : PyDict :=
  if (d.find? (fun p => p.1 = k)).isSome then
    d.map (fun p => if p.1 = k then (k, v) else p)
  else d ++ [(k, v)]

/-! ## Batch processor data model (src/processors/batch_processor.py) -/

/-- Mirror of the `ProcessingPriority` enum (LOW=1 … URGENT=4). -/
inductive ProcessingPriority where
  | LOW | NORMAL | HIGH | URGENT
  deriving DecidableEq

/-- `.value` of the enum members. -/
def ProcessingPriority.value : ProcessingPriority → Nat
  | .LOW => 1
  | .NORMAL => 2
  | .HIGH => 3
  | .URGENT => 4

/-- Mirror of the `FileType` enum. -/
inductive FileType where
  | RAW | IMAGE | VIDEO | UNKNOWN
  deriving DecidableEq

/-- Mirror of the `ProcessingJob` dataclass. -/
structure ProcessingJob where
  file_path : String
  file_type : FileType
  priority : ProcessingPriority
  settings : PyDict
  job_id : String
  created_time : ℚ
  estimated_time : ℚ
  deriving DecidableEq

/-- The ordering key `(4 - priority.value, job.estimated_time, job.created_time)`
built in `add_batch_job` (line 151). -/
abbrev QueueKey := Nat × ℚ × ℚ

/-- The mutable attributes of `BatchProcessor` that the embedded operations
read or write.  The three job maps are keyed by job id; only their key sets
matter to the embedded reads, so they are carried as id lists. -/
structure BatchState where
  queue : List (QueueKey × ProcessingJob) := []
  active_jobs : List String := []
  completed_jobs : List String := []
  failed_jobs : List String := []
  is_processing : Bool := false
  total_job_count : Nat := 0
  times_raw : List ℚ := []
  times_image : List ℚ := []
  times_video : List ℚ := []

/-- The per-kind history list `self.processing_times[file_type]`
(`FileType.UNKNOWN` is not a key of that dict; `.get` then yields the empty
default, which is what the `[]` arm mirrors). -/
def BatchState.timesFor (s : BatchState) : FileType → List ℚ
  | .RAW => s.times_raw
  | .IMAGE => s.times_image
  | .VIDEO => s.times_video
  | .UNKNOWN => []

/-- Defaults returned by `_get_average_processing_time` when there is no
history (`defaults.get(file_type, 10.0)`). -/
def avgTimeDefault : FileType → ℚ
  | .RAW => 30
  | .IMAGE => 5
  | .VIDEO => 60
  | .UNKNOWN => 10

/-- Mirror of `BatchProcessor._get_average_processing_time` (line 598). -/
def getAverageProcessingTime (s : BatchState) (ft : FileType) : ℚ :=
  let times := s.timesFor ft
  if times ≠ [] then times.sum / times.length
  else avgTimeDefault ft

/-- The fields of the dict returned by `get_processing_status` (line 244). -/
structure ProcessingStatus where
  is_processing : Bool
  queue_size : Nat
  active_jobs : Nat
  completed_jobs : Nat
  failed_jobs : Nat
  total_jobs : Nat
  progress_percentage : ℚ
  estimated_time_remaining : ℚ
  avg_raw : ℚ
  avg_image : ℚ
  avg_video : ℚ

/-- Mirror of `BatchProcessor.get_processing_status` (line 220). -/
def getProcessingStatus (s : BatchState) : ProcessingStatus :=
  let queue_size := s.queue.length
  let active_count := s.active_jobs.length
  let completed_count := s.completed_jobs.length
  let failed_count := s.failed_jobs.length
  let avgR := getAverageProcessingTime s .RAW
  let avgI := getAverageProcessingTime s .IMAGE
  let avgV := getAverageProcessingTime s .VIDEO
  let remaining_time : ℚ :=
    if queue_size > 0 then (queue_size : ℚ) * (avgR + avgI + avgV) / 3 else 0
  { is_processing := s.is_processing
    queue_size := queue_size
    active_jobs := active_count
    completed_jobs := completed_count
    failed_jobs := failed_count
    total_jobs := s.total_job_count
    progress_percentage :=
      ((completed_count : ℚ) + (failed_count : ℚ)) / (max s.total_job_count 1 : Nat) * 100
    estimated_time_remaining := remaining_time
    avg_raw := avgR
    avg_image := avgI
    avg_video := avgV }

/-! ## `FileNamer._format_resolution` (src/organizer/file_namer.py:163) -/

/-- Mirror of `FileNamer._format_resolution`.  The Python argument is either
`None` or a tuple; `none` embeds `None`, and the tuple is a list of ints.  The
Python guard `if not resolution or len(resolution) < 2` is falsy for `None`
and for any tuple of length `< 2` (the empty tuple being falsy is subsumed by
its length being `0 < 2`). -/
def formatResolution (resolution : Option (List Int)) : String :=
  match resolution with
  | none => "unknown"
  | some res =>
    if res.length < 2 then "unknown"
    else
      let width := res.headI
      let height := (res.drop 1).headI
      if width ≥ 3840 ∧ height ≥ 2160 then "4K"
      else if width ≥ 1920 ∧ height ≥ 1080 then "1080p"
      else if width ≥ 1280 ∧ height ≥ 720 then "720p"
      else s!"{width}x{height}"

/-! ## `FileNamer.sanitize_filename` (src/organizer/file_namer.py:245)

The sanitizer is embedded on the character list of the argument
(`String.data`); `sanitizeFilename` wraps it back into a `String`. -/

/-- The filesystem-hostile character set `'<>:"/\\|?*'` of line 249. -/
def invalidChars : List Char := ['<', '>', ':', '"', '/', '\\', '|', '?', '*']

/-- Python `str.replace(c, d)` for single-character pattern and replacement. -/
def pyReplaceChar (c d : Char) (s : List Char) : List Char :=
  s.map (fun x => if x = c then d else x)

/-- One pass of Python `filename.replace("__", "_")`: replace leftmost,
non-overlapping occurrences of two underscores by one. -/
def replaceUU : List Char → List Char
  | [] => []
  | [c] => [c]
  | c1 :: c2 :: rest =>
    if c1 = '_' ∧ c2 = '_' then '_' :: replaceUU rest
    else c1 :: replaceUU (c2 :: rest)

/-- Python `"__" in filename`. -/
def hasUU : List Char → Bool
  | [] => false
  | [_] => false
  | c1 :: c2 :: rest =>
    if c1 = '_' ∧ c2 = '_' then true else hasUU (c2 :: rest)

/-- The `while "__" in filename: filename = filename.replace("__", "_")`
loop of lines 257–258, run on `fuel` iterations.  Each pass of `replaceUU`
on a string containing `"__"` strictly shortens it (`length_replaceUU_lt`
below), so `s.length` iterations always reach the loop's exit condition:
`collapseGo_fuel_irrelevant` below shows any fuel `≥ s.length` gives the
same result, i.e. the fuel is an artifact of the embedding, not a
truncation of the loop. -/
def collapseGo : Nat → List Char → List Char
  | 0, s => s
  | fuel + 1, s => if hasUU s then collapseGo fuel (replaceUU s) else s

/-- The underscore-collapsing loop of `sanitize_filename`. -/
def collapseUnderscores (s : List Char) : List Char :=
  collapseGo s.length s

/-- Python `s.rstrip(c)` for a single strip character. -/
def pyRstrip (c : Char) (s : List Char) : List Char :=
  (s.reverse.dropWhile (fun x => x = c)).reverse

/-- Python `s.strip(c)` for a single strip character. -/
def pyStrip (c : Char) (s : List Char) : List Char :=
  pyRstrip c (s.dropWhile (fun x => x = c))

/-- Lines 249–254: the per-character replacement passes — one
`filename.replace(char, "_")` per hostile character, then
`filename.replace(" ", "_")`. -/
def sanitizeStage12 (s : List Char) : List Char :=
  pyReplaceChar ' ' '_' (invalidChars.foldl (fun acc c => pyReplaceChar c '_' acc) s)

/-- Lines 264–265: `if len(filename) > 200: filename = filename[:200].rstrip("_")`. -/
def sanitizeStage5 (s4 : List Char) : List Char :=
  if 200 < s4.length then pyRstrip '_' (s4.take 200) else s4

/-- Lines 268–269: `if not filename: filename = "unnamed_file"`. -/
def sanitizeEmptyGuard (s5 : List Char) : List Char :=
  if s5 = [] then "unnamed_file".data else s5

/-- Mirror of `FileNamer.sanitize_filename`, character-list level: the
replacement passes, the underscore-collapsing loop, `strip("_")`, the
200-character cap with re-strip, and the empty-name guard, in source order. -/
def sanitizeChars (s : List Char) : List Char :=
  sanitizeEmptyGuard (sanitizeStage5 (pyStrip '_' (collapseUnderscores (sanitizeStage12 s))))

/-- Mirror of `FileNamer.sanitize_filename`. -/
def sanitizeFilename (s : String) : String := ⟨sanitizeChars s.data⟩

/-- Collapse every run of consecutive underscores to a single underscore —
the denotational reading of the spec's "collapse repeated underscores". -/
def squeezeUnderscores (s : List Char) : List Char :=
  s.foldr (fun c acc => if c = '_' ∧ acc.head? = some '_' then acc else c :: acc) []

/-- Modelled from the spec: the §4.3 sanitization step list, including its
"strip trailing dots" step, each step read denotationally (simultaneous
replacement of the hostile set, run-collapsing of underscores). -/
def sanitizeSpecChars (s : List Char) : List Char :=
  sanitizeEmptyGuard (sanitizeStage5 (pyRstrip '.' (pyStrip '_' (squeezeUnderscores
    ((s.map (fun c => if c ∈ invalidChars then '_' else c)).map
      (fun c => if c = ' ' then '_' else c))))))

/-- Modelled from the spec: string-level wrapper of `sanitizeSpecChars`. -/
def sanitizeSpec (s : String) : String := ⟨sanitizeSpecChars s.data⟩

/-- The §4.3 step list without the "strip trailing dots" step (the spec's
steps as amended to match the code). -/
def sanitizeSpecNoDotsChars (s : List Char) : List Char :=
  sanitizeEmptyGuard (sanitizeStage5 (pyStrip '_' (squeezeUnderscores
    ((s.map (fun c => if c ∈ invalidChars then '_' else c)).map
      (fun c => if c = ' ' then '_' else c)))))

/-- String-level wrapper of `sanitizeSpecNoDotsChars`. -/
def sanitizeSpecNoDots (s : String) : String := ⟨sanitizeSpecNoDotsChars s.data⟩

/-- The net effect, on one character, of the sanitizer's replacement stage
(hostile set to underscore, then space to underscore). -/
def replaceSubst (c : Char) : Char :=
  if c ∈ invalidChars then '_' else if c = ' ' then '_' else c

/-- The characters the sanitizer's replacement stage leaves alone. -/
def CleanChar (c : Char) : Prop := c ∉ invalidChars ∧ c ≠ ' '

instance : DecidablePred CleanChar := fun c => by
  unfold CleanChar
  infer_instance

/-- The shape of every `sanitize_filename` output: only clean characters, no
two consecutive underscores, no underscore at either end, at most 200
characters, nonempty.  Established by `sanitizeChars_sanitized`; any list of
this shape is a fixpoint of the sanitizer (`sanitizeChars_fix`). -/
def Sanitized (y : List Char) : Prop :=
  (∀ c ∈ y, CleanChar c) ∧ hasUU y = false ∧
  y.head? ≠ some '_' ∧ y.getLast? ≠ some '_' ∧ y.length ≤ 200 ∧ y ≠ []

/-! ## `FileNamer.generate_filename` (src/organizer/file_namer.py:87) -/

/-- Python `sequence_number or 1` (line 111): both `None` and `0` are falsy
and fall back to `1`. -/
def seqOrOne : Option Nat → Nat
  | none => 1
  | some 0 => 1
  | some (n + 1) => n + 1

/-- Python `format(n, "03d")` for a natural number: the decimal digits,
left-padded with `'0'` to width 3. -/
def pad3 (n : Nat) : String :=
  ⟨List.replicate (3 - (toString n).length) '0' ++ (toString n).data⟩

/-- Mirror of `FileNamer.generate_filename` (lines 87–111).  The variable
preparation, template validation (which only logs a warning and never
rejects) and variable substitution of lines 88–101 are absorbed into the
`subst` argument: `.ok s` is the substituted template when those calls
return, `.error ()` the case in which one of them raises, taken by the
`except` branch of lines 108–111.  On the success path the substituted
name is passed through `sanitize_filename` last and returned; the
exception path returns the fallback `"media_file_"` followed by the
3-padded `sequence_number or 1` directly, without sanitizing it. -/
def generateFilename (subst : Except Unit String) (sequence_number : Option Nat) :
    String :=
  match subst with
  | .ok s => sanitizeFilename s
  | .error _ => "media_file_" ++ pad3 (seqOrOne sequence_number)

/-! ## String helpers for the scanner (Python `.lower()`, `.upper()`, `in`,
`.startswith()`) -/

/-- Python `s.lower()` (per character, as for the ASCII data involved). -/
def strLower (s : String) : String := ⟨s.data.map Char.toLower⟩

/-- Python `s.upper()`. -/
def strUpper (s : String) : String := ⟨s.data.map Char.toUpper⟩

/-- Python `needle in hay` on strings: contiguous-substring containment. -/
def pySubstrB (needle hay : String) : Bool :=
  decide (needle.data <:+: hay.data)

/-- Python `s.startswith(pre)`. -/
def pyStartswith (s pre : String) : Bool :=
  decide (pre.data <+: s.data)

/-- Python `d.get(tag, "")` on a string-valued tag map. -/
def exifGet (exif : List (String × String)) (tag : String) : String :=
  ((exif.find? (fun p => p.1 = tag)).map (·.2)).getD ""

/-! ## `FileScanner` per-file analysis (src/core/file_scanner.py) -/

/-- Mirror of `FileScanner._determine_media_type` (line 200); the two
supported-format lists come from the configuration. -/
def determineMediaType (photoFormats videoFormats : List String)
    (extension : String) : String :=
  if extension ∈ photoFormats then
    if extension ∈ [".cr2", ".cr3", ".arw", ".nef"] then "raw" else "photo"
  else if extension ∈ videoFormats then "video"
  else "unknown"

/-- The `__init__` defaults for `supported_photo_formats`. -/
def defaultPhotoFormats : List String := [".jpg", ".jpeg", ".cr2", ".cr3", ".heic", ".png"]

/-- The `__init__` defaults for `supported_video_formats`. -/
def defaultVideoFormats : List String := [".mp4", ".mov", ".avi"]

/-- Lines 277–296 of `_detect_device_type`: the DJI / Android /
filename-pattern fallback cascade reached when neither the Canon branch nor
the iPhone branch returned. -/
def detectDeviceRest (make software filenameU extLower : String) : String :=
  if pySubstrB "dji" make ∨ pyStartswith filenameU "DJI_" then "dji_action"
  else if pySubstrB "android" software then "android"
  else if pyStartswith filenameU "IMG_" ∧ (extLower = ".jpg" ∨ extLower = ".jpeg") then
    "iphone"
  else if pyStartswith filenameU "VID_" then "iphone"
  else if pyStartswith filenameU "DJI_" then "dji_action"
  else "unknown"

/-- Mirror of `FileScanner._detect_device_type` (line 257).  Note that it
consults only the file's own EXIF tags, extension and filename — the device
profile table cached in `__init__` is never read here. -/
def detectDeviceType (mf : MediaFile) : String :=
  let exif := mf.exif_data.getD []
  let filename := strUpper mf.filename
  let make := strLower (exifGet exif "Make")
  let model := strLower (exifGet exif "Model")
  if pySubstrB "canon" make ∧ pySubstrB "80d" model then "canon_80d"
  else if pySubstrB "apple" make ∨ pyStartswith filename "IMG_" then
    if strLower mf.extension = ".heic" then "iphone"
    else if pySubstrB "ios" (strLower (exifGet exif "Software")) ∨
        pyStartswith filename "IMG_" then "iphone"
    else detectDeviceRest make (strLower (exifGet exif "Software")) filename
      (strLower mf.extension)
  else detectDeviceRest make (strLower (exifGet exif "Software")) filename
    (strLower mf.extension)

/-- Mirror of `FileScanner._assess_quality` (line 298). -/
def assessQuality (mf : MediaFile) : String :=
  if mf.media_type = "raw" then "high"
  else if mf.media_type = "photo" then
    if mf.size_bytes > 5 * 1024 * 1024 then "high"
    else if mf.size_bytes > 2 * 1024 * 1024 then "standard"
    else "low"
  else if mf.media_type = "video" then
    if mf.size_bytes > 100 * 1024 * 1024 then "high"
    else if mf.size_bytes > 20 * 1024 * 1024 then "standard"
    else "low"
  else "unknown"

/-- Mirror of `FileScanner._estimate_processing_time` (line 344). -/
def estimateProcessingTimeScan (mf : MediaFile) : ℚ :=
  let base1 : ℚ := 1
  let base2 := if mf.media_type = "raw" then base1 * 15
    else if mf.media_type = "video" then base1 * 8
    else base1
  let base3 := if mf.quality_category = "high" then base2 * 2
    else if mf.quality_category = "low" then base2 * 0.5
    else base2
  let size_mb : ℚ := (mf.size_bytes : ℚ) / (1024 * 1024)
  if size_mb > 50 then base3 * 1.5
  else if size_mb < 1 then base3 * 0.3
  else base3

/-- Mirror of `FileScanner._calculate_file_hash` (line 369).  The argument
is the outcome of reading the file's bytes: the md5 hexdigest when the file
is readable, `none` when opening/reading raises — in which case the
`except` branch returns the empty string (and records nothing else). -/
def calculateFileHash (readResult : Option String) : String :=
  match readResult with
  | some digest => digest
  | none => ""

/-- The per-file facts `_analyze_file` consumes from the file system and the
external readers (PIL, mimetypes, open): path string, file name, suffix,
`stat` outcome (`none` = `stat()` raised), the outcome of the PIL
`Image.open` block (error message, or width × height and the EXIF tag map),
the guessed mime type (`none` = falsy result), and the byte-read outcome
used for hashing. -/
structure ScanFile where
  pathStr : String
  name : String
  suffix : String
  statResult : Option Nat
  photoOpen : Except String (Int × Int × List (String × String))
  mimeType : Option String
  hashResult : Option String

/-- The date-tag scan of lines 231–234: first present tag among
`DateTime`, `DateTimeOriginal`, `DateTimeDigitized` wins. -/
def firstDateTag (exif : List (String × String)) : Option String :=
  match (exif.find? (fun p => p.1 = "DateTime")).map (·.2) with
  | some v => some v
  | none =>
    match (exif.find? (fun p => p.1 = "DateTimeOriginal")).map (·.2) with
    | some v => some v
    | none => (exif.find? (fun p => p.1 = "DateTimeDigitized")).map (·.2)

/-- Mirror of `FileScanner._extract_photo_metadata` (line 212): on a
successful open, set resolution, the tag map and the creation date; on an
exception, append the issue note and leave the fields untouched. -/
def extractPhotoMetadata (f : ScanFile) (mf : MediaFile) : MediaFile :=
  match f.photoOpen with
  | .ok (w, h, exif) =>
    { mf with resolution := some [w, h], exif_data := some exif,
              creation_date := firstDateTag exif }
  | .error e =>
    { mf with issues := mf.issues ++ ["Metadata extraction failed: " ++ e] }

/-- Mirror of `FileScanner._extract_video_metadata` (line 242): a truthy
guessed mime type is stored as the single-entry tag map. -/
def extractVideoMetadata (f : ScanFile) (mf : MediaFile) : MediaFile :=
  match f.mimeType with
  | some m => { mf with exif_data := some [("mime_type", m)] }
  | none => mf

/-- Mirror of `FileScanner._analyze_file` (line 143): `stat`, format check,
metadata enrichment, device detection, quality, priority, estimate, hash —
in source order.  A `stat()` exception is caught by the function's own
`except` branch, which returns `None`. -/
def analyzeFile (photoFormats videoFormats : List String) (f : ScanFile) :
    Option MediaFile :=
  match f.statResult with
  | none => none
  | some size =>
    let extension := strLower f.suffix
    let media_type := determineMediaType photoFormats videoFormats extension
    if media_type = "unknown" then none
    else
      let mf0 : MediaFile :=
        { path := f.pathStr, filename := f.name, extension := extension,
          size_bytes := size, media_type := media_type,
          device_type := "unknown", quality_category := "unknown" }
      let mf1 :=
        if media_type = "photo" ∨ media_type = "raw" then extractPhotoMetadata f mf0
        else if media_type = "video" then extractVideoMetadata f mf0
        else mf0
      let mf2 := { mf1 with device_type := detectDeviceType mf1 }
      let mf3 := { mf2 with quality_category := assessQuality mf2 }
      let mf4 := { mf3 with processing_priority := calculatePriority mf3,
                            estimated_processing_time := estimateProcessingTimeScan mf3 }
      some { mf4 with file_hash := some (calculateFileHash f.hashResult) }

/-! ## Duplicate detection and categorization (src/core/file_scanner.py) -/

/-- One step of the hash-group accumulation: Python dict insertion order —
append to an existing group in place, or append a new group at the end. -/
def assocAppend (groups : List (String × List MediaFile)) (h : String)
    (f : MediaFile) : List (String × List MediaFile) :=
  if (groups.find? (fun g => g.1 = h)).isSome then
    groups.map (fun g => if g.1 = h then (g.1, g.2 ++ [f]) else g)
  else groups ++ [(h, [f])]

/-- The body of the grouping loop of `detect_duplicates` (lines 416–420):
`if file.file_hash:` skips both `None` and `""`. -/
def dupStep (groups : List (String × List MediaFile)) (file : MediaFile) :
    List (String × List MediaFile) :=
  match file.file_hash with
  | some h => if h ≠ "" then assocAppend groups h file else groups
  | none => groups

/-- Mirror of `FileScanner.detect_duplicates` (line 411): group files by
truthy digest, then keep the groups with more than one member. -/
def detectDuplicates (files : List MediaFile) : List (String × List MediaFile) :=
  (files.foldl dupStep []).filter (fun g => 1 < g.2.length)

/-- The three grouped views built by `categorize_files` (line 382); the
per-file appends in source order produce exactly these order-preserving
filters (files whose tag is not a key of the view are skipped). -/
structure CategorizedFiles where
  photo : List MediaFile
  video : List MediaFile
  raw : List MediaFile
  canon_80d : List MediaFile
  iphone : List MediaFile
  dji_action : List MediaFile
  android : List MediaFile
  unknownDevice : List MediaFile
  high : List MediaFile
  standard : List MediaFile
  low : List MediaFile

/-- Mirror of `FileScanner.categorize_files` (line 382). -/
def categorizeFiles (files : List MediaFile) : CategorizedFiles :=
  { photo := files.filter (fun f => f.media_type = "photo")
    video := files.filter (fun f => f.media_type = "video")
    raw := files.filter (fun f => f.media_type = "raw")
    canon_80d := files.filter (fun f => f.device_type = "canon_80d")
    iphone := files.filter (fun f => f.device_type = "iphone")
    dji_action := files.filter (fun f => f.device_type = "dji_action")
    android := files.filter (fun f => f.device_type = "android")
    unknownDevice := files.filter (fun f => f.device_type = "unknown")
    high := files.filter (fun f => f.quality_category = "high")
    standard := files.filter (fun f => f.quality_category = "standard")
    low := files.filter (fun f => f.quality_category = "low") }

/-! ## `FileScanner.scan_directory` (src/core/file_scanner.py:79)

The walk is embedded as a list of directory entries; each regular file
carries the `ScanFile` facts consumed by the `self._analyze_file(file_path)`
call.  `_analyze_file` wraps its entire body in `try/except Exception:
return None` (lines 152–198), so every per-file analysis failure reaches
the scan loop as `None`, indistinguishable from an unsupported format; the
loop's own `except` arm at lines 119–122 never fires for an analysis
failure, and nothing is ever appended to the `errors` list. -/

/-- One path produced by the glob walk: whether `is_file()` holds, and the
per-file facts the `_analyze_file` call consumes. -/
structure DirEntry where
  isFile : Bool
  file : ScanFile

/-- The scan's root argument: existence, directory-ness, and the walk. -/
structure ScanRoot where
  pathExists : Bool
  isDir : Bool
  pathStr : String
  entries : List DirEntry

/-- The `scan_stats` dictionary. -/
structure ScanStats where
  total_files : Nat
  media_files : Nat
  unsupported_files : Nat
  errors : List String
  deriving DecidableEq

/-- The dictionary returned by `scan_directory`. -/
structure ScanResult where
  files : List MediaFile
  categorized : CategorizedFiles
  duplicates : List (String × List MediaFile)
  stats : ScanStats
  total_size_mb : ℚ
  estimated_processing_time : ℚ

/-- The body of the scan loop (lines 107–122) for one walked path: the
`self._analyze_file(file_path)` call returns a media file or `None` and
never raises (its own blanket `except Exception: return None` at lines
196–198 swallows every analysis exception), so only the `if media_file:`
split of lines 113–117 is live; the loop's `except` arm of lines 119–122
never executes and the `errors` field is never touched. -/
def scanStep (P V : List String) (acc : List MediaFile × ScanStats)
    (e : DirEntry) : List MediaFile × ScanStats :=
  if e.isFile then
    let stats := { acc.2 with total_files := acc.2.total_files + 1 }
    match analyzeFile P V e.file with
    | some mf => (acc.1 ++ [mf], { stats with media_files := stats.media_files + 1 })
    | none =>
      (acc.1, { stats with unsupported_files := stats.unsupported_files + 1 })
  else acc

/-- Mirror of `FileScanner.scan_directory` (line 79); `P`, `V` are the
configured photo and video format lists consumed by the analysis. -/
def scanDirectory (P V : List String) (root : ScanRoot) :
    Except String ScanResult :=
  if ¬root.pathExists then .error ("Directory not found: " ++ root.pathStr)
  else if ¬root.isDir then .error ("Path is not a directory: " ++ root.pathStr)
  else
    let walked := root.entries.foldl (scanStep P V) ([], ⟨0, 0, 0, []⟩)
    .ok
      { files := walked.1
        categorized := categorizeFiles walked.1
        duplicates := detectDuplicates walked.1
        stats := walked.2
        total_size_mb := (walked.1.map (fun f => (f.size_bytes : ℚ))).sum / (1024 * 1024)
        estimated_processing_time := (walked.1.map (·.estimated_processing_time)).sum }

/-! ## `ConfigManager.detect_device_profile` (src/core/config.py:708)

Regex semantics (`re.search` with `re.IGNORECASE`, and whether a pattern
compiles) are external to the embedding; they are supplied as an oracle. -/

/-- The regex capability: `valid pat` is whether the pattern compiles
(`re.error` is raised otherwise), `search pat s` the result of
`re.search(pat, s, re.IGNORECASE) is not None`. -/
structure RegexOracle where
  valid : String → Bool
  search : String → String → Bool

/-- The optional detection criteria a profile may carry (presence of a key
in `profile.detection_criteria`). -/
structure DetectionCriteria where
  exif_make : Option String := none
  exif_model : Option String := none
  filename_pattern : Option String := none
  exif_software : Option String := none
  deriving DecidableEq

/-- One profile's checks, lines 726–765: every present criterion must pass.
Make: upper-cased substring.  Model: regex, degrading to lower-cased
substring when the pattern does not compile.  Filename: skipped entirely
when `filename` is empty (`and filename`); a non-compiling pattern
disqualifies the profile (`except re.error: match = False`).  Software:
lower-cased substring. -/
def profileMatches (ro : RegexOracle) (c : DetectionCriteria)
    (exif : List (String × String)) (filename : String) : Bool :=
  (match c.exif_make with
   | none => true
   | some em => pySubstrB (strUpper em) (strUpper (exifGet exif "make"))) &&
  (match c.exif_model with
   | none => true
   | some pat =>
     if ro.valid pat then ro.search pat (exifGet exif "model")
     else pySubstrB (strLower pat) (strLower (exifGet exif "model"))) &&
  (match c.filename_pattern with
   | none => true
   | some pat =>
     if filename = "" then true
     else if ro.valid pat then ro.search pat filename
     else false) &&
  (match c.exif_software with
   | none => true
   | some es => pySubstrB (strLower es) (strLower (exifGet exif "software")))

/-- Mirror of `ConfigManager.detect_device_profile` (line 708): walk the
profile table in insertion order, return the first fully matching profile's
name, `None` when nothing matches. -/
def detectDeviceProfile (ro : RegexOracle) :
    List (String × DetectionCriteria) → List (String × String) → String →
      Option String
  | [], _, _ => none
  | (name, c) :: rest, exif, filename =>
    if profileMatches ro c exif filename then some name
    else detectDeviceProfile ro rest exif filename

/-- Modelled from the spec: §4.1 device detection as the claim states it for
a media file — iterate the externally supplied, ordered profile table; a
profile's predicates are substring on make, regex on model, regex on
filename, substring on software, with a regex failure degrading to substring
matching; the first fully matching profile wins; no match gives
`"unknown"`. -/
def specProfileMatches (ro : RegexOracle) (c : DetectionCriteria)
    (exif : List (String × String)) (filename : String) : Bool :=
  (match c.exif_make with
   | none => true
   | some em => pySubstrB (strUpper em) (strUpper (exifGet exif "make"))) &&
  (match c.exif_model with
   | none => true
   | some pat =>
     if ro.valid pat then ro.search pat (exifGet exif "model")
     else pySubstrB (strLower pat) (strLower (exifGet exif "model"))) &&
  (match c.filename_pattern with
   | none => true
   | some pat =>
     if ro.valid pat then ro.search pat filename
     else pySubstrB (strLower pat) (strLower filename)) &&
  (match c.exif_software with
   | none => true
   | some es => pySubstrB (strLower es) (strLower (exifGet exif "software")))

/-- Modelled from the spec: the claimed per-media-file detection result. -/
def specDetectDevice (ro : RegexOracle) (table : List (String × DetectionCriteria))
    (mf : MediaFile) : String :=
  match table.find? (fun p => specProfileMatches ro p.2 (mf.exif_data.getD []) mf.filename) with
  | some p => p.1
  | none => "unknown"

/-! ## `BatchProcessor.add_batch_job` and the worker queue
(src/processors/batch_processor.py) -/

/-- Mirror of `BatchProcessor._determine_file_type` (line 532). -/
def determineFileType (suffix : String) : FileType :=
  let extension := strLower suffix
  if extension ∈ [".cr2", ".cr3", ".nef", ".nrw", ".arw", ".dng", ".raf", ".orf", ".rw2"]
    then FileType.RAW
  else if extension ∈ [".jpg", ".jpeg", ".png", ".tiff", ".tif", ".webp", ".heic", ".heif"]
    then FileType.IMAGE
  else if extension ∈ [".mp4", ".mov", ".avi", ".mkv", ".m4v", ".mts", ".m2ts"]
    then FileType.VIDEO
  else FileType.UNKNOWN

/-- A file handed to `add_batch_job`: its path string, suffix, and `stat`
outcome (`none` = `stat()` raised, swallowed by the bare `except: pass`). -/
structure BatchFile where
  pathStr : String
  suffix : String
  statSize : Option Nat
  deriving DecidableEq

/-- The base estimates of `_estimate_processing_time`
(`base_times.get(file_type, 10.0)`). -/
def baseTimeFor : FileType → ℚ
  | .RAW => 30
  | .IMAGE => 5
  | .VIDEO => 60
  | .UNKNOWN => 10

/-- Mirror of `BatchProcessor._estimate_processing_time` (line 568). -/
def estimateProcessingTimeBatch (f : BatchFile) (ft : FileType)
    (settings : PyDict) : ℚ :=
  let base0 := baseTimeFor ft
  let base1 :=
    match f.statSize with
    | some sz => base0 * max 1 (((sz : ℚ) / (1024 * 1024)) / 10)
    | none => base0
  let base2 := if truthy (dictGetD settings "add_watermark" (.bool false))
    then base1 * 1.2 else base1
  if dictGet settings "enhancement_level" = some (.str "heavy")
    then base2 * 1.5 else base2

/-- `heapq` comparison of two ordering keys: lexicographic on
`(4 - priority.value, estimated_time, created_time)`. -/
def QueueKey.le (a b : QueueKey) : Prop :=
  a.1 < b.1 ∨ (a.1 = b.1 ∧ (a.2.1 < b.2.1 ∨ (a.2.1 = b.2.1 ∧ a.2.2 ≤ b.2.2)))

instance : ∀ a b : QueueKey, Decidable (QueueKey.le a b) := fun a b => by
  unfold QueueKey.le
  infer_instance

/-- The enqueue loop of `add_batch_job` (lines 126–157), threading the
wall-clock oracle: call `k` of `time.time()` returns `times k`; call 0 is
consumed by `batch_id = f"batch_{int(time.time())}"`, and each created job
consumes one further call for `created_time`.

`self.processing_queue.put(...)` is `heappush`: the entry is appended and
then sifted by comparing tuples `((rank, est, time), job)`.  When two key
tuples are equal the comparison falls through to the `ProcessingJob`
payloads, which do not support `<` — a `TypeError` (the entry stays
appended, the exception propagates out of the loop).  With pairwise distinct
keys no payload is ever compared and the push plainly inserts, which is the
success path here; a push whose key collides with a queued entry's key is
modelled as that `TypeError` (exact for a push onto a single colliding
entry, where `heappush`'s first sift comparison is against that root).
Returns (queue, jobs_added, loop completed without exception). -/
def addBatchLoop (times : Nat → ℚ) (batchId : String) (settings : PyDict)
    (priority : ProcessingPriority) :
    List BatchFile → List (QueueKey × ProcessingJob) → Nat →
      List (QueueKey × ProcessingJob) × Nat × Bool
  | [], q, jobsAdded => (q, jobsAdded, true)
  | f :: rest, q, jobsAdded =>
    let ft := determineFileType f.suffix
    if ft = FileType.UNKNOWN then
      addBatchLoop times batchId settings priority rest q jobsAdded
    else
      let est := estimateProcessingTimeBatch f ft settings
      let job : ProcessingJob :=
        { file_path := f.pathStr, file_type := ft, priority := priority,
          settings := settings, job_id := batchId ++ "_" ++ toString jobsAdded,
          created_time := times (jobsAdded + 1), estimated_time := est }
      let key : QueueKey := (4 - priority.value, est, job.created_time)
      if q.any (fun x => x.1 = key) then (q ++ [(key, job)], jobsAdded, false)
      else addBatchLoop times batchId settings priority rest (q ++ [(key, job)])
        (jobsAdded + 1)

/-- What `add_batch_job` returns and leaves behind: the new queue (entries
pushed before a failure stay queued), the new `total_job_count` (only
updated after a fully successful loop, line 159), and the success flag. -/
structure AddBatchResult where
  queue : List (QueueKey × ProcessingJob)
  total_job_count : Nat
  success : Bool
  jobs_added : Nat

/-- Mirror of `BatchProcessor.add_batch_job` (line 104): the whole body is
wrapped in `try/except`, so a `TypeError` out of a `put` yields
`{"success": False, "error": ...}` with the queue as mutated so far and
`total_job_count` untouched. -/
def addBatchJob (st : BatchState) (files : List BatchFile) (settings : PyDict)
    (priority : ProcessingPriority) (times : Nat → ℚ) : AddBatchResult :=
  let r := addBatchLoop times ("batch_" ++ toString ⌊times 0⌋) settings priority
    files st.queue 0
  if r.2.2 then
    { queue := r.1, total_job_count := st.total_job_count + r.2.1,
      success := true, jobs_added := r.2.1 }
  else
    { queue := r.1, total_job_count := st.total_job_count,
      success := false, jobs_added := r.2.1 }

/-- One `processing_queue.get()` of the worker loop (line 304) = `heappop`:
remove the entry with the smallest key.  Among entries with equal minimal
keys the earliest-queued one is returned here; the theorems that rely on the
pop order always assume pairwise distinct keys, where `heappop` is exactly
the unique minimum. -/
def extractMin : List (QueueKey × ProcessingJob) →
    Option ((QueueKey × ProcessingJob) × List (QueueKey × ProcessingJob))
  | [] => none
  | e :: rest =>
    match extractMin rest with
    | none => some (e, [])
    | some (m, rest') =>
      if QueueKey.le e.1 m.1 then some (e, rest) else some (m, e :: rest')

/-- Repeated `get()` until empty, on `fuel` iterations (each extraction
removes exactly one entry, so `q.length` iterations drain the queue; the
fuel is an artifact of the embedding). -/
def drainGo : Nat → List (QueueKey × ProcessingJob) →
    List (QueueKey × ProcessingJob)
  | 0, _ => []
  | fuel + 1, q =>
    match extractMin q with
    | none => []
    | some (m, rest) => m :: drainGo fuel rest

/-- The order in which the dispatcher receives the queued jobs. -/
def drainQueue (q : List (QueueKey × ProcessingJob)) :
    List (QueueKey × ProcessingJob) :=
  drainGo q.length q

/-- The entries a fully successful `add_batch_job` loop appends, starting
with `jobs_added = k` (the loop body of lines 126–157 on its success path). -/
def batchEntries (times : Nat → ℚ) (batchId : String) (settings : PyDict)
    (priority : ProcessingPriority) :
    List BatchFile → Nat → List (QueueKey × ProcessingJob)
  | [], _ => []
  | f :: rest, k =>
    let ft := determineFileType f.suffix
    if ft = FileType.UNKNOWN then batchEntries times batchId settings priority rest k
    else
      let est := estimateProcessingTimeBatch f ft settings
      let job : ProcessingJob :=
        { file_path := f.pathStr, file_type := ft, priority := priority,
          settings := settings, job_id := batchId ++ "_" ++ toString k,
          created_time := times (k + 1), estimated_time := est }
      ((4 - priority.value, est, job.created_time), job) ::
        batchEntries times batchId settings priority rest (k + 1)

/-! ## Settings dictionaries as heap objects (C3)

Python dictionaries are mutable objects; `settings.copy()` allocates a new
top-level dictionary whose values — including references to nested
dictionaries — are shared.  The heap makes that sharing explicit. -/

/-- The store of live dictionary objects, address → contents. -/
structure Heap where
  store : List (Nat × PyDict)
  deriving DecidableEq

/-- Dereference an address. -/
def Heap.lookup (h : Heap) (a : Nat) : Option PyDict :=
  (h.store.find? (fun p => p.1 = a)).map (·.2)

/-- `obj_at_a[k] = v`: mutate the dictionary object at address `a`. -/
def Heap.setKey (h : Heap) (a : Nat) (k : String) (v : PyVal) : Heap :=
  ⟨h.store.map (fun p => if p.1 = a then (p.1, dictSet p.2 k v) else p)⟩

/-- `settings.copy()` at enqueue (line 144 of batch_processor.py): allocate
a fresh dictionary with the caller's top-level bindings — a shallow copy
(`ref` values still point to the same nested objects). -/
def settingsSnapshot (h : Heap) (caller fresh : Nat) : Heap :=
  ⟨h.store ++ [(fresh, (h.lookup caller).getD [])]⟩

/-- `settings_at_a.get(k)`. -/
def readTop (h : Heap) (a : Nat) (k : String) : Option PyVal :=
  (h.lookup a).bind (fun d => dictGet d k)

/-- `settings_at_a[k1][k2]` when `settings_at_a[k1]` is a reference to a
nested dictionary. -/
def readNested (h : Heap) (a : Nat) (k1 k2 : String) : Option PyVal :=
  match readTop h a k1 with
  | some (.ref b) => readTop h b k2
  | _ => none

/-! ## Concrete inputs for witnesses and counterexamples -/

/-- A raw capture, as `_analyze_file` would classify a `.cr2` file. -/
def sampleRawFile : MediaFile :=
  { path := "/shoot/IMG_0001.cr2", filename := "IMG_0001.cr2", extension := ".cr2",
    size_bytes := 25000000, media_type := "raw", device_type := "unknown",
    quality_category := "high" }

/-- A standard-quality video file. -/
def sampleVideoStd : MediaFile :=
  { path := "/shoot/clip.mp4", filename := "clip.mp4", extension := ".mp4",
    size_bytes := 30000000, media_type := "video", device_type := "unknown",
    quality_category := "standard" }

/-- A file with Canon 80D EXIF tags and a neutral filename. -/
def mfCanon : MediaFile :=
  { path := "/shoot/ABC123.jpg", filename := "ABC123.jpg", extension := ".jpg",
    size_bytes := 6291456, media_type := "photo", device_type := "unknown",
    quality_category := "unknown",
    exif_data := some [("Make", "Canon"), ("Model", "Canon EOS 80D")] }

/-- A regex oracle for concrete checks (every pattern compiles, nothing
matches); the cases it is used in never reach a regex predicate. -/
def roTrivial : RegexOracle := ⟨fun _ => true, fun _ _ => false⟩

/-- A regex oracle where no pattern compiles. -/
def roNone : RegexOracle := ⟨fun _ => false, fun _ _ => false⟩

/-- A profile criterion carrying only a non-compiling filename pattern. -/
def c4Criteria : DetectionCriteria := { filename_pattern := some "(" }

/-- A 6 MB JPEG whose bytes cannot be read when hashing. -/
def c6File : ScanFile :=
  { pathStr := "/d/photo1.jpg", name := "photo1.jpg", suffix := ".JPG",
    statResult := some 6291456, photoOpen := .ok (4000, 3000, []),
    mimeType := none, hashResult := none }

/-- The same file with readable bytes. -/
def c6FileReadable : ScanFile :=
  { c6File with hashResult := some "d41d8cd98f00b204e9800998ecf8427e" }

/-- A raw capture whose analysis succeeds. -/
def rawScan : ScanFile :=
  { pathStr := "/d/IMG_0001.cr2", name := "IMG_0001.cr2", suffix := ".cr2",
    statResult := some 25000000, photoOpen := .ok (6000, 4000, []),
    mimeType := none, hashResult := some "aa11" }

/-- A file whose analysis throws (`stat()` raises inside `_analyze_file`):
the function's blanket `except` swallows the exception and returns `None`. -/
def badScan : ScanFile :=
  { pathStr := "/d/bad.jpg", name := "bad.jpg", suffix := ".jpg",
    statResult := none, photoOpen := .error "unused", mimeType := none,
    hashResult := none }

/-- A text file: unsupported extension. -/
def txtScan : ScanFile :=
  { pathStr := "/d/notes.txt", name := "notes.txt", suffix := ".txt",
    statResult := some 100, photoOpen := .error "unused", mimeType := none,
    hashResult := none }

/-- A scan root with one analyzable media file, one file whose analysis
throws (and is swallowed), one unsupported file, and one subdirectory. -/
def sampleRoot : ScanRoot :=
  { pathExists := true, isDir := true, pathStr := "/d",
    entries := [⟨true, rawScan⟩, ⟨true, badScan⟩, ⟨true, txtScan⟩,
                ⟨false, txtScan⟩] }

/-- A caller's settings dict at address 0 whose `"event_info"` value is a
reference to the nested dict at address 1. -/
def c3Heap : Heap := ⟨[(0, [("event_info", .ref 1)]), (1, [("x", .str "old")])]⟩

/-- Two image files of unknown size (`stat()` raising makes both estimates
the 5-second base). -/
def batchFileA : BatchFile := ⟨"/b/a.jpg", ".jpg", none⟩

/-- Second image file, identical estimate. -/
def batchFileB : BatchFile := ⟨"/b/b.jpg", ".jpg", none⟩

/-!
# Theorems
-/

theorem formatResolution_cons (w h : Int) (rest : List Int) :
    formatResolution (some (w :: h :: rest)) =
      if 3840 ≤ w ∧ 2160 ≤ h then "4K"
      else if 1920 ≤ w ∧ 1080 ≤ h then "1080p"
      else if 1280 ≤ w ∧ 720 ≤ h then "720p"
      else s!"{w}x{h}" := by
  simp [formatResolution, List.headI]

/-! ### Sanitizer lemmas -/

theorem length_replaceUU_le : ∀ s : List Char, (replaceUU s).length ≤ s.length
  | [] => le_rfl
  | [_] => le_rfl
  | c1 :: c2 :: rest => by
    unfold replaceUU
    split_ifs with h
    · have := length_replaceUU_le rest
      simp only [List.length_cons]
      omega
    · have := length_replaceUU_le (c2 :: rest)
      simp only [List.length_cons] at this ⊢
      omega

theorem length_replaceUU_lt : ∀ s : List Char, hasUU s = true →
    (replaceUU s).length < s.length
  | [], h => by simp [hasUU] at h
  | [c], h => by simp [hasUU] at h
  | c1 :: c2 :: rest, h => by
    unfold replaceUU
    split_ifs with hc
    · have := length_replaceUU_le rest
      simp only [List.length_cons]
      omega
    · have hh : hasUU (c2 :: rest) = true := by
        unfold hasUU at h
        rwa [if_neg hc] at h
      have := length_replaceUU_lt (c2 :: rest) hh
      simp only [List.length_cons] at this ⊢
      omega

theorem squeeze_cons (c : Char) (t : List Char) :
    squeezeUnderscores (c :: t) =
      if c = '_' ∧ (squeezeUnderscores t).head? = some '_' then squeezeUnderscores t
      else c :: squeezeUnderscores t := rfl

theorem hasUU_cons_iff (c : Char) (t : List Char) :
    hasUU (c :: t) = true ↔ (c = '_' ∧ t.head? = some '_') ∨ hasUU t = true := by
  cases t with
  | nil => simp [hasUU]
  | cons d r =>
    show (if c = '_' ∧ d = '_' then true else hasUU (d :: r)) = true ↔ _
    split_ifs with h
    · simp [h.1, h.2]
    · simp only [List.head?_cons, true_iff, iff_true]
      constructor
      · intro hh
        exact Or.inr hh
      · rintro (⟨hc, hd⟩ | hh)
        · exact absurd ⟨hc, by injection hd⟩ h
        · exact hh

theorem squeeze_of_not_hasUU : ∀ {s : List Char}, hasUU s = false →
    squeezeUnderscores s = s := by
  intro s
  induction s with
  | nil => intro _; rfl
  | cons c t ih =>
    intro h
    have h' : ¬((c = '_' ∧ t.head? = some '_') ∨ hasUU t = true) := by
      rw [← hasUU_cons_iff]
      simp [h]
    have h1 : ¬(c = '_' ∧ t.head? = some '_') := fun hx => h' (Or.inl hx)
    have ht : hasUU t = false := by
      rw [Bool.eq_false_iff]
      exact fun hx => h' (Or.inr hx)
    rw [squeeze_cons, ih ht, if_neg h1]

theorem head?_squeeze_underscore (t : List Char) :
    (squeezeUnderscores ('_' :: t)).head? = some '_' := by
  rw [squeeze_cons]
  split_ifs with h
  · exact h.2
  · rfl

theorem hasUU_squeeze (s : List Char) : hasUU (squeezeUnderscores s) = false := by
  induction s with
  | nil => rfl
  | cons c t ih =>
    rw [squeeze_cons]
    split_ifs with h
    · exact ih
    · rw [Bool.eq_false_iff]
      intro hcontra
      rcases (hasUU_cons_iff _ _).mp hcontra with h1 | h2
      · exact h h1
      · rw [ih] at h2
        exact absurd h2 (by decide)

theorem squeeze_replaceUU : ∀ s : List Char,
    squeezeUnderscores (replaceUU s) = squeezeUnderscores s
  | [] => rfl
  | [_] => rfl
  | c1 :: c2 :: rest => by
    unfold replaceUU
    split_ifs with h
    · obtain ⟨h1, h2⟩ := h
      subst h1
      subst h2
      rw [squeeze_cons, squeeze_replaceUU rest, ← squeeze_cons]
      conv_rhs => rw [squeeze_cons]
      rw [if_pos ⟨rfl, head?_squeeze_underscore rest⟩]
    · rw [squeeze_cons, squeeze_replaceUU (c2 :: rest), ← squeeze_cons]

theorem mem_squeeze {c : Char} : ∀ {s : List Char},
    c ∈ squeezeUnderscores s → c ∈ s := by
  intro s
  induction s with
  | nil => intro h; exact absurd h (by simp [squeezeUnderscores])
  | cons d t ih =>
    rw [squeeze_cons]
    split_ifs with h
    · intro hm
      exact List.mem_cons_of_mem _ (ih hm)
    · intro hm
      rcases List.mem_cons.mp hm with h1 | h2
      · exact h1 ▸ List.mem_cons_self _ _
      · exact List.mem_cons_of_mem _ (ih h2)

theorem collapseGo_eq_squeeze : ∀ (n : Nat) (s : List Char), s.length ≤ n →
    collapseGo n s = squeezeUnderscores s
  | 0, s, h => by
    have hnil : s = [] := List.length_eq_zero.mp (Nat.le_zero.mp h)
    subst hnil
    rfl
  | n + 1, s, h => by
    unfold collapseGo
    split_ifs with hs
    · have hlt := length_replaceUU_lt s hs
      have hle : (replaceUU s).length ≤ n := by omega
      rw [collapseGo_eq_squeeze n (replaceUU s) hle, squeeze_replaceUU]
    · exact (squeeze_of_not_hasUU (by simpa using hs)).symm

theorem collapseUnderscores_eq_squeeze (s : List Char) :
    collapseUnderscores s = squeezeUnderscores s :=
  collapseGo_eq_squeeze s.length s le_rfl

/-- Any fuel of at least the string's length yields the loop's true
fixpoint, so the fuel in `collapseGo` is not a semantic truncation. -/
theorem collapseGo_fuel_irrelevant {n : Nat} {s : List Char} (h : s.length ≤ n) :
    collapseGo n s = collapseUnderscores s := by
  rw [collapseGo_eq_squeeze n s h, collapseUnderscores_eq_squeeze]

theorem hasUU_eq_true_iff : ∀ s : List Char, hasUU s = true ↔ ['_', '_'] <:+: s := by
  intro s
  induction s with
  | nil => simp [hasUU]
  | cons c t ih =>
    rw [hasUU_cons_iff, List.infix_cons_iff]
    constructor
    · rintro (⟨hc, hd⟩ | h2)
      · left
        subst hc
        cases t with
        | nil => simp at hd
        | cons d r =>
          simp only [List.head?_cons] at hd
          injection hd with hd'
          subst hd'
          exact ⟨r, rfl⟩
      · right
        exact ih.mp h2
    · rintro (h1 | h2)
      · obtain ⟨t', ht⟩ := h1
        left
        simp only [List.cons_append, List.nil_append] at ht
        injection ht with hh1 hh2
        refine ⟨hh1.symm, ?_⟩
        rw [← hh2]
        rfl
      · right
        exact ih.mpr h2

theorem hasUU_false_mono {s t : List Char} (h : hasUU t = false) (hsub : s <:+: t) :
    hasUU s = false := by
  rw [Bool.eq_false_iff]
  intro hc
  have h1 := (hasUU_eq_true_iff s).mp hc
  have h2 := (hasUU_eq_true_iff t).mpr (h1.trans hsub)
  rw [h2] at h
  exact absurd h (by decide)

theorem head?_dropWhile_not {p : Char → Bool} : ∀ (l : List Char) {a : Char},
    (l.dropWhile p).head? = some a → p a = false := by
  intro l
  induction l with
  | nil => intro a h; simp at h
  | cons c t ih =>
    intro a h
    rw [List.dropWhile_cons] at h
    split_ifs at h with hc
    · exact ih h
    · simp only [List.head?_cons, Option.some.injEq] at h
      subst h
      simpa using hc

theorem pyRstrip_front (c : Char) (l : List Char) : pyRstrip c l <+: l := by
  unfold pyRstrip
  have h := @List.dropWhile_suffix _ l.reverse (fun x => x = c)
  have h2 := List.reverse_prefix.mpr h
  simpa using h2

theorem getLast?_pyRstrip {c : Char} {l : List Char} {a : Char}
    (h : (pyRstrip c l).getLast? = some a) : a ≠ c := by
  unfold pyRstrip at h
  rw [List.getLast?_reverse] at h
  have := head?_dropWhile_not _ h
  simpa using this

theorem pyRstrip_eq_nil_iff {c : Char} {l : List Char} :
    pyRstrip c l = [] ↔ ∀ x ∈ l, x = c := by
  unfold pyRstrip
  simp [List.dropWhile_eq_nil_iff, List.mem_reverse]

theorem pyRstrip_fix {c : Char} {l : List Char} (h : l.getLast? ≠ some c) :
    pyRstrip c l = l := by
  unfold pyRstrip
  have hh : l.reverse.head? ≠ some c := by rwa [List.head?_reverse]
  cases hr : l.reverse with
  | nil =>
    have hnil : l = [] := by simpa using congrArg List.reverse hr
    simp [hnil]
  | cons x xs =>
    rw [List.dropWhile_cons]
    have hx : ¬(x = c) := by
      rw [hr] at hh
      simpa using hh
    rw [if_neg (by simpa using hx)]
    conv_rhs => rw [← List.reverse_reverse l, hr]

theorem dropWhile_eq_self_of_head {c : Char} {l : List Char}
    (h : l.head? ≠ some c) : l.dropWhile (fun x => x = c) = l := by
  cases l with
  | nil => rfl
  | cons x xs =>
    rw [List.dropWhile_cons]
    have hx : ¬(x = c) := by simpa using h
    rw [if_neg (by simpa using hx)]

theorem pyStrip_fix {c : Char} {l : List Char} (h1 : l.head? ≠ some c)
    (h2 : l.getLast? ≠ some c) : pyStrip c l = l := by
  unfold pyStrip
  rw [dropWhile_eq_self_of_head h1, pyRstrip_fix h2]

theorem pyStrip_infixOf (c : Char) (l : List Char) : pyStrip c l <:+: l := by
  unfold pyStrip
  exact (pyRstrip_front c _).isInfix.trans (List.dropWhile_suffix _).isInfix

theorem head?_of_pre {l₁ l₂ : List Char} (h : l₁ <+: l₂) (hne : l₁ ≠ []) :
    l₁.head? = l₂.head? := by
  obtain ⟨t, rfl⟩ := h
  cases l₁ with
  | nil => exact absurd rfl hne
  | cons x xs => rfl

theorem head?_pyStrip {c a : Char} {l : List Char}
    (h : (pyStrip c l).head? = some a) : a ≠ c := by
  unfold pyStrip at h
  have hpre := pyRstrip_front c (l.dropWhile (fun x => x = c))
  obtain ⟨t, ht⟩ := hpre
  have hd : (List.dropWhile (fun x => x = c) l).head? = some a := by
    rw [← ht, List.head?_append, h]
    rfl
  have := head?_dropWhile_not _ hd
  simpa using this

theorem getLast?_pyStrip {c a : Char} {l : List Char}
    (h : (pyStrip c l).getLast? = some a) : a ≠ c := by
  unfold pyStrip at h
  exact getLast?_pyRstrip h

theorem replaceStage_eq_map (s : List Char) :
    sanitizeStage12 s = s.map replaceSubst := by
  unfold sanitizeStage12
  simp only [invalidChars, List.foldl_cons, List.foldl_nil, pyReplaceChar,
    List.map_map]
  apply List.map_congr_left
  intro a _
  by_cases h : a ∈ invalidChars
  · simp only [invalidChars, List.mem_cons, List.not_mem_nil, or_false] at h
    rcases h with rfl | rfl | rfl | rfl | rfl | rfl | rfl | rfl | rfl <;> rfl
  · simp only [invalidChars, List.mem_cons, List.not_mem_nil, or_false] at h
    push_neg at h
    obtain ⟨n1, n2, n3, n4, n5, n6, n7, n8, n9⟩ := h
    by_cases hs : a = ' '
    · subst hs
      simp [replaceSubst, invalidChars, Function.comp]
    · simp [replaceSubst, invalidChars, Function.comp, n1, n2, n3, n4, n5, n6,
        n7, n8, n9, hs]

theorem specReplace_eq_map (s : List Char) :
    (s.map (fun c => if c ∈ invalidChars then '_' else c)).map
        (fun c => if c = ' ' then '_' else c) = s.map replaceSubst := by
  rw [List.map_map]
  apply List.map_congr_left
  intro a _
  by_cases h : a ∈ invalidChars
  · simp [replaceSubst, h, Function.comp]
  · by_cases hs : a = ' '
    · subst hs
      simp [replaceSubst, h, Function.comp]
    · simp [replaceSubst, h, hs, Function.comp]

theorem cleanChar_replaceSubst (c : Char) : CleanChar (replaceSubst c) := by
  unfold replaceSubst CleanChar
  split_ifs with h1 h2
  · decide
  · decide
  · exact ⟨h1, h2⟩

theorem replaceSubst_eq_self {c : Char} (h : CleanChar c) : replaceSubst c = c := by
  unfold replaceSubst
  rw [if_neg h.1, if_neg h.2]

theorem sanitizeChars_sanitized (s : List Char) : Sanitized (sanitizeChars s) := by
  unfold sanitizeChars
  have hclean_m : ∀ c ∈ sanitizeStage12 s, CleanChar c := by
    rw [replaceStage_eq_map]
    intro c hc
    obtain ⟨a, _, rfl⟩ := List.mem_map.mp hc
    exact cleanChar_replaceSubst a
  set m := sanitizeStage12 s
  have h3sq : collapseUnderscores m = squeezeUnderscores m :=
    collapseUnderscores_eq_squeeze m
  have hUU3 : hasUU (collapseUnderscores m) = false := by
    rw [h3sq]
    exact hasUU_squeeze m
  have hclean3 : ∀ c ∈ collapseUnderscores m, CleanChar c := by
    intro c hc
    rw [h3sq] at hc
    exact hclean_m c (mem_squeeze hc)
  set s3 := collapseUnderscores m
  have h4inf : pyStrip '_' s3 <:+: s3 := pyStrip_infixOf _ _
  have hUU4 : hasUU (pyStrip '_' s3) = false := hasUU_false_mono hUU3 h4inf
  have hclean4 : ∀ c ∈ pyStrip '_' s3, CleanChar c :=
    fun c hc => hclean3 c (h4inf.sublist.subset hc)
  have hhead4 : (pyStrip '_' s3).head? ≠ some '_' :=
    fun hh => (head?_pyStrip hh) rfl
  have hlast4 : (pyStrip '_' s3).getLast? ≠ some '_' :=
    fun hh => (getLast?_pyStrip hh) rfl
  set s4 := pyStrip '_' s3
  have h5main : (∀ c ∈ sanitizeStage5 s4, CleanChar c) ∧
      hasUU (sanitizeStage5 s4) = false ∧
      (sanitizeStage5 s4).head? ≠ some '_' ∧
      (sanitizeStage5 s4).getLast? ≠ some '_' ∧
      (sanitizeStage5 s4).length ≤ 200 := by
    unfold sanitizeStage5
    split_ifs with hlen
    · have htake : s4.take 200 <+: s4 := List.take_prefix _ _
      have hpre : pyRstrip '_' (s4.take 200) <+: s4.take 200 := pyRstrip_front _ _
      have hinf : pyRstrip '_' (s4.take 200) <:+: s4 :=
        hpre.isInfix.trans htake.isInfix
      refine ⟨?_, ?_, ?_, ?_, ?_⟩
      · exact fun c hc => hclean4 c (hinf.sublist.subset hc)
      · exact hasUU_false_mono hUU4 hinf
      · intro hh
        have hne : pyRstrip '_' (s4.take 200) ≠ [] := by
          intro hnil
          rw [hnil] at hh
          simp at hh
        have heq : (pyRstrip '_' (s4.take 200)).head? = s4.head? :=
          head?_of_pre (hpre.trans htake) hne
        rw [heq] at hh
        exact hhead4 hh
      · exact fun hh => (getLast?_pyRstrip hh) rfl
      · have h1 := hpre.sublist.length_le
        have h2 := List.length_take 200 s4
        omega
    · exact ⟨hclean4, hUU4, hhead4, hlast4, by omega⟩
  unfold sanitizeEmptyGuard
  split_ifs with hnil
  · refine ⟨?_, ?_, ?_, ?_, ?_, ?_⟩ <;> decide
  · obtain ⟨a, b, c, d, e⟩ := h5main
    exact ⟨a, b, c, d, e, hnil⟩

theorem sanitizeChars_fix {y : List Char} (h : Sanitized y) : sanitizeChars y = y := by
  obtain ⟨hclean, hUU, hhead, hlast, hlen, hne⟩ := h
  unfold sanitizeChars
  have h12 : sanitizeStage12 y = y := by
    rw [replaceStage_eq_map]
    conv_rhs => rw [← List.map_id y]
    apply List.map_congr_left
    intro a ha
    rw [replaceSubst_eq_self (hclean a ha)]
    rfl
  rw [h12]
  have hcol : collapseUnderscores y = y := by
    rw [collapseUnderscores_eq_squeeze]
    exact squeeze_of_not_hasUU hUU
  rw [hcol, pyStrip_fix hhead hlast]
  have h5 : sanitizeStage5 y = y := by
    unfold sanitizeStage5
    rw [if_neg (by omega)]
  rw [h5]
  unfold sanitizeEmptyGuard
  rw [if_neg hne]

/-! ### Device-detection theorems (C4) -/

/-- C4 counterexample: with the externally supplied profile table EMPTY, no
profile can match, so the claim demands `"unknown"` for every file; the
scanner's per-media-file detection nevertheless answers `"canon_80d"` for a
Canon 80D file, because `_detect_device_type` is a hardcoded cascade that
never consults the table. -/
theorem C4_table_ignored_counterexample :
    detectDeviceType mfCanon = "canon_80d" ∧
    specDetectDevice roTrivial [] mfCanon = "unknown" ∧
    detectDeviceType mfCanon ≠ specDetectDevice roTrivial [] mfCanon := by
  refine ⟨by decide, rfl, by decide⟩

/-- C4 amended: the table-driven detection exists only as
`ConfigManager.detect_device_profile`, which the scanner never calls: it
walks the table in order, the first profile whose present predicates all
match wins, and no match yields `None` (not `"unknown"`); a regex failure
degrades to substring matching for the model predicate only, while a regex
failure on the filename pattern disqualifies the profile; the scanner's own
per-file detection is a fixed hardcoded cascade whose only possible answers
are canon_80d, iphone, dji_action, android and `"unknown"`. -/
theorem C4_device_detection (ro : RegexOracle) :
    (∀ (table : List (String × DetectionCriteria)) (exif : List (String × String))
        (filename : String),
      detectDeviceProfile ro table exif filename =
        (table.find? (fun p => profileMatches ro p.2 exif filename)).map Prod.fst) ∧
    (∀ (table : List (String × DetectionCriteria)) (exif : List (String × String))
        (filename : String),
      detectDeviceProfile ro table exif filename = none ↔
        ∀ p ∈ table, profileMatches ro p.2 exif filename = false) ∧
    (∀ (c : DetectionCriteria) (exif : List (String × String)) (filename pat : String),
      c.filename_pattern = some pat → filename ≠ "" → ro.valid pat = false →
      profileMatches ro c exif filename = false) ∧
    (∀ (c : DetectionCriteria) (exif : List (String × String)) (filename pat : String),
      c.exif_model = some pat → ro.valid pat = false →
      profileMatches ro c exif filename = true →
      pySubstrB (strLower pat) (strLower (exifGet exif "model")) = true) ∧
    (∀ mf : MediaFile,
      detectDeviceType mf = "canon_80d" ∨ detectDeviceType mf = "iphone" ∨
      detectDeviceType mf = "dji_action" ∨ detectDeviceType mf = "android" ∨
      detectDeviceType mf = "unknown") := by
  have hfind : ∀ (table : List (String × DetectionCriteria)) exif filename,
      detectDeviceProfile ro table exif filename =
        (table.find? (fun p => profileMatches ro p.2 exif filename)).map Prod.fst := by
    intro table exif filename
    induction table with
    | nil => rfl
    | cons p rest ih =>
      obtain ⟨name, c⟩ := p
      unfold detectDeviceProfile
      by_cases hp : profileMatches ro c exif filename = true
      · rw [if_pos hp, List.find?_cons_of_pos _ (by simpa using hp)]
        rfl
      · rw [if_neg hp, List.find?_cons_of_neg _ (by simpa using hp), ih]
  refine ⟨hfind, ?_, ?_, ?_, ?_⟩
  · intro table exif filename
    rw [hfind]
    rw [Option.map_eq_none', List.find?_eq_none]
    constructor
    · intro h p hp
      simpa using h p hp
    · intro h p hp
      simpa using h p hp
  · intro c exif filename pat hpat hfn hval
    unfold profileMatches
    rw [hpat]
    simp [hfn, hval]
  · intro c exif filename pat hpat hval hmatch
    unfold profileMatches at hmatch
    rw [hpat] at hmatch
    dsimp only at hmatch
    rw [if_neg (by simp [hval])] at hmatch
    simp only [Bool.and_eq_true] at hmatch
    exact hmatch.1.1.2
  · intro mf
    unfold detectDeviceType detectDeviceRest
    dsimp only
    split_ifs <;>
      first
        | exact Or.inl rfl
        | exact Or.inr (Or.inl rfl)
        | exact Or.inr (Or.inr (Or.inl rfl))
        | exact Or.inr (Or.inr (Or.inr (Or.inl rfl)))
        | exact Or.inr (Or.inr (Or.inr (Or.inr rfl)))

/-- Witness for C4's amended theorem at concrete inputs: a one-profile
table whose filename pattern does not compile matches nothing, so the
lookup returns `None`. -/
theorem C4_device_detection_witness :
    profileMatches roNone c4Criteria [] "X.JPG" = false ∧
    detectDeviceProfile roNone [("broken", c4Criteria)] [] "X.JPG" = none := by
  have h := C4_device_detection roNone
  constructor
  · exact h.2.2.1 c4Criteria [] "X.JPG" "(" rfl (by decide) rfl
  · rw [h.1]
    have hm := h.2.2.1 c4Criteria [] "X.JPG" "(" rfl (by decide) rfl
    rw [List.find?_cons_of_neg _ (by simpa using hm)]
    rfl

/-! ### Queue-ordering lemmas (C5) -/

theorem QueueKey.le_refl (a : QueueKey) : QueueKey.le a a :=
  Or.inr ⟨rfl, Or.inr ⟨rfl, le_rfl⟩⟩

theorem QueueKey.le_total (a b : QueueKey) : QueueKey.le a b ∨ QueueKey.le b a := by
  unfold QueueKey.le
  rcases lt_trichotomy a.1 b.1 with h1 | h1 | h1
  · exact Or.inl (Or.inl h1)
  · rcases lt_trichotomy a.2.1 b.2.1 with h2 | h2 | h2
    · exact Or.inl (Or.inr ⟨h1, Or.inl h2⟩)
    · rcases le_or_lt a.2.2 b.2.2 with h3 | h3
      · exact Or.inl (Or.inr ⟨h1, Or.inr ⟨h2, h3⟩⟩)
      · exact Or.inr (Or.inr ⟨h1.symm, Or.inr ⟨h2.symm, h3.le⟩⟩)
    · exact Or.inr (Or.inr ⟨h1.symm, Or.inl h2⟩)
  · exact Or.inr (Or.inl h1)

theorem QueueKey.le_trans {a b c : QueueKey} (h1 : QueueKey.le a b)
    (h2 : QueueKey.le b c) : QueueKey.le a c := by
  unfold QueueKey.le at *
  rcases h1 with h1 | ⟨e1, h1⟩
  · rcases h2 with h2 | ⟨e2, _⟩
    · exact Or.inl (h1.trans h2)
    · exact Or.inl (e2 ▸ h1)
  · rcases h2 with h2 | ⟨e2, h2⟩
    · exact Or.inl (e1 ▸ h2)
    · refine Or.inr ⟨e1.trans e2, ?_⟩
      rcases h1 with h1 | ⟨f1, h1⟩
      · rcases h2 with h2 | ⟨f2, _⟩
        · exact Or.inl (h1.trans h2)
        · exact Or.inl (f2 ▸ h1)
      · rcases h2 with h2 | ⟨f2, h2⟩
        · exact Or.inl (f1 ▸ h2)
        · exact Or.inr ⟨f1.trans f2, h1.trans h2⟩

theorem extractMin_eq_none_iff {q : List (QueueKey × ProcessingJob)} :
    extractMin q = none ↔ q = [] := by
  cases q with
  | nil => simp [extractMin]
  | cons e rest =>
    simp only [extractMin]
    cases extractMin rest with
    | none => simp
    | some p =>
      obtain ⟨m, r⟩ := p
      dsimp only
      split_ifs <;> simp

theorem extractMin_perm :
    ∀ {q : List (QueueKey × ProcessingJob)} {m r}, extractMin q = some (m, r) →
      q.Perm (m :: r) := by
  intro q
  induction q with
  | nil => intro m r h; simp [extractMin] at h
  | cons e rest ih =>
    intro m r h
    simp only [extractMin] at h
    cases hrec : extractMin rest with
    | none =>
      rw [hrec] at h
      have hrest : rest = [] := extractMin_eq_none_iff.mp hrec
      subst hrest
      simp only [Option.some.injEq, Prod.mk.injEq] at h
      obtain ⟨rfl, rfl⟩ := h
      exact List.Perm.refl _
    | some p =>
      obtain ⟨m', r'⟩ := p
      rw [hrec] at h
      dsimp only at h
      split_ifs at h with hle
      · simp only [Option.some.injEq, Prod.mk.injEq] at h
        obtain ⟨rfl, rfl⟩ := h
        exact List.Perm.refl _
      · simp only [Option.some.injEq, Prod.mk.injEq] at h
        obtain ⟨rfl, rfl⟩ := h
        exact ((ih hrec).cons e).trans (List.Perm.swap _ _ _)

theorem extractMin_min :
    ∀ {q : List (QueueKey × ProcessingJob)} {m r}, extractMin q = some (m, r) →
      ∀ x ∈ q, QueueKey.le m.1 x.1 := by
  intro q
  induction q with
  | nil => intro m r h; simp [extractMin] at h
  | cons e rest ih =>
    intro m r h x hx
    simp only [extractMin] at h
    cases hrec : extractMin rest with
    | none =>
      rw [hrec] at h
      have hrest : rest = [] := extractMin_eq_none_iff.mp hrec
      subst hrest
      simp only [Option.some.injEq, Prod.mk.injEq] at h
      obtain ⟨rfl, rfl⟩ := h
      simp only [List.mem_singleton] at hx
      subst hx
      exact QueueKey.le_refl _
    | some p =>
      obtain ⟨m', r'⟩ := p
      rw [hrec] at h
      dsimp only at h
      split_ifs at h with hle
      · simp only [Option.some.injEq, Prod.mk.injEq] at h
        obtain ⟨rfl, rfl⟩ := h
        rcases List.mem_cons.mp hx with hx' | hx'
        · subst hx'
          exact QueueKey.le_refl _
        · exact QueueKey.le_trans hle (ih hrec x hx')
      · simp only [Option.some.injEq, Prod.mk.injEq] at h
        obtain ⟨rfl, rfl⟩ := h
        have hme : QueueKey.le m'.1 e.1 := by
          rcases QueueKey.le_total e.1 m'.1 with h' | h'
          · exact absurd h' hle
          · exact h'
        rcases List.mem_cons.mp hx with hx' | hx'
        · subst hx'
          exact hme
        · exact ih hrec x hx'

theorem drainGo_sorted_perm :
    ∀ (fuel : Nat) (q : List (QueueKey × ProcessingJob)), q.length ≤ fuel →
      (drainGo fuel q).Perm q ∧
      List.Sorted (fun x y => QueueKey.le x.1 y.1) (drainGo fuel q) := by
  intro fuel
  induction fuel with
  | zero =>
    intro q h
    have hq : q = [] := List.length_eq_zero.mp (Nat.le_zero.mp h)
    subst hq
    exact ⟨List.Perm.refl _, List.sorted_nil⟩
  | succ n ih =>
    intro q h
    simp only [drainGo]
    cases hext : extractMin q with
    | none =>
      have hq : q = [] := extractMin_eq_none_iff.mp hext
      subst hq
      exact ⟨List.Perm.refl _, List.sorted_nil⟩
    | some p =>
      obtain ⟨m, rest⟩ := p
      have hperm := extractMin_perm hext
      have hlen : rest.length ≤ n := by
        have := hperm.length_eq
        simp only [List.length_cons] at this
        omega
      obtain ⟨ihp, ihs⟩ := ih rest hlen
      constructor
      · exact (ihp.cons m).trans hperm.symm
      · rw [List.sorted_cons]
        refine ⟨?_, ihs⟩
        intro b hb
        have hb1 : b ∈ rest := ihp.mem_iff.mp hb
        have hb2 : b ∈ q := hperm.mem_iff.mpr (List.mem_cons_of_mem m hb1)
        exact extractMin_min hext b hb2

/-- `drainQueue` dequeues a permutation of the queue in nondecreasing key
order. -/
theorem drainQueue_sorted_perm (q : List (QueueKey × ProcessingJob)) :
    (drainQueue q).Perm q ∧
    List.Sorted (fun x y => QueueKey.le x.1 y.1) (drainQueue q) :=
  drainGo_sorted_perm q.length q le_rfl

theorem addBatchLoop_spec (times : Nat → ℚ) (hmono : StrictMono times)
    (batchId : String) (settings : PyDict) (priority : ProcessingPriority) :
    ∀ (files : List BatchFile) (q : List (QueueKey × ProcessingJob)) (k : Nat),
      (∀ e ∈ q, e.1.2.2 < times (k + 1)) →
      addBatchLoop times batchId settings priority files q k =
        (q ++ batchEntries times batchId settings priority files k,
         k + (files.filter
            (fun f => determineFileType f.suffix ≠ FileType.UNKNOWN)).length,
         true) := by
  intro files
  induction files with
  | nil =>
    intro q k hq
    simp [addBatchLoop, batchEntries]
  | cons f rest ih =>
    intro q k hq
    by_cases hft : determineFileType f.suffix = FileType.UNKNOWN
    · simp only [addBatchLoop, batchEntries, if_pos hft]
      rw [ih q k hq]
      simp [List.filter_cons, hft]
    · simp only [addBatchLoop, batchEntries, if_neg hft]
      have hkey : ¬((q.any (fun x => x.1 = ((4 - priority.value : Nat),
          estimateProcessingTimeBatch f (determineFileType f.suffix) settings,
          times (k + 1)))) = true) := by
        simp only [List.any_eq_true, not_exists]
        intro x
        rintro ⟨hx, hxeq⟩
        have hlt := hq x hx
        have hx1 : x.1 = ((4 - priority.value : Nat),
            estimateProcessingTimeBatch f (determineFileType f.suffix) settings,
            times (k + 1)) := by simpa using hxeq
        rw [hx1] at hlt
        exact lt_irrefl _ hlt
      rw [if_neg hkey]
      rw [ih _ (k + 1) ?_]
      · simp only [Prod.mk.injEq]
        refine ⟨?_, ?_, ?_⟩
        · simp [List.append_assoc]
        · simp [List.filter_cons, hft]
          omega
        · trivial
      · intro e he
        rcases List.mem_append.mp he with h' | h'
        · exact lt_trans (hq e h') (hmono (by omega))
        · simp only [List.mem_singleton] at h'
          subst h'
          exact hmono (by omega)

theorem batchEntries_created_ge (times : Nat → ℚ) (hmono : StrictMono times)
    (batchId : String) (settings : PyDict) (priority : ProcessingPriority) :
    ∀ (files : List BatchFile) (k : Nat) (e : QueueKey × ProcessingJob),
      e ∈ batchEntries times batchId settings priority files k →
      times (k + 1) ≤ e.1.2.2 := by
  intro files
  induction files with
  | nil => intro k e he; simp [batchEntries] at he
  | cons f rest ih =>
    intro k e he
    simp only [batchEntries] at he
    split_ifs at he with hft
    · exact ih k e he
    · rcases List.mem_cons.mp he with he' | he'
      · subst he'
        simp
      · exact le_trans (hmono.monotone (by omega)) (ih (k + 1) e he')

theorem batchEntries_pairwise (times : Nat → ℚ) (hmono : StrictMono times)
    (batchId : String) (settings : PyDict) (priority : ProcessingPriority) :
    ∀ (files : List BatchFile) (k : Nat),
      List.Pairwise (fun x y => x.1.2.2 < y.1.2.2)
        (batchEntries times batchId settings priority files k) := by
  intro files
  induction files with
  | nil => intro k; simp [batchEntries]
  | cons f rest ih =>
    intro k
    simp only [batchEntries]
    split_ifs with hft
    · exact ih k
    · refine List.Pairwise.cons ?_ (ih (k + 1))
      intro e he
      have h1 := batchEntries_created_ge times hmono batchId settings priority
        rest (k + 1) e he
      have h2 : times (k + 1) < times (k + 2) := hmono (by omega)
      simp only
      exact lt_of_lt_of_le h2 h1

/-- C5 corrected/amended: the ordering key is
`(4 - priority.value, estimated_time, created_time)` with the wall-clock
creation timestamp as the third component, not an enqueue sequence number.
Provided the clock strictly increases across the batch's `time.time()`
calls and every already-queued entry carries an earlier stamp:
every supported file is enqueued (the add succeeds and the counters
advance); the dispatcher then receives a permutation of the queue in
nondecreasing key order — URGENT (rank 0) before HIGH, NORMAL and LOW,
smaller estimates first within a rank; and among jobs of equal rank and
equal estimate, dequeue order follows the strictly increasing creation
stamps, which along the batch is exactly enqueue (FIFO) order. -/
theorem C5_queue_ordering (st : BatchState) (files : List BatchFile)
    (settings : PyDict) (priority : ProcessingPriority) (times : Nat → ℚ)
    (hmono : StrictMono times) (hpast : ∀ e ∈ st.queue, e.1.2.2 < times 1)
    (hdistinct : List.Pairwise (fun x y => x.1.2.2 < y.1.2.2) st.queue) :
    (addBatchJob st files settings priority times).success = true ∧
    (addBatchJob st files settings priority times).queue =
      st.queue ++ batchEntries times ("batch_" ++ toString ⌊times 0⌋) settings
        priority files 0 ∧
    (addBatchJob st files settings priority times).jobs_added =
      (files.filter (fun f => determineFileType f.suffix ≠ FileType.UNKNOWN)).length ∧
    (addBatchJob st files settings priority times).total_job_count =
      st.total_job_count +
        (files.filter (fun f => determineFileType f.suffix ≠ FileType.UNKNOWN)).length ∧
    ((4 : Nat) - ProcessingPriority.URGENT.value = 0 ∧
      (4 : Nat) - ProcessingPriority.HIGH.value = 1 ∧
      (4 : Nat) - ProcessingPriority.NORMAL.value = 2 ∧
      (4 : Nat) - ProcessingPriority.LOW.value = 3) ∧
    List.Pairwise (fun x y => x.1.2.2 < y.1.2.2)
      ((addBatchJob st files settings priority times).queue) ∧
    (∀ q : List (QueueKey × ProcessingJob),
      (drainQueue q).Perm q ∧
      List.Sorted (fun x y => QueueKey.le x.1 y.1) (drainQueue q)) ∧
    (∀ q : List (QueueKey × ProcessingJob),
      List.Pairwise (fun x y => x.1.2.2 ≠ y.1.2.2) q →
      List.Pairwise
        (fun x y => x.1.1 = y.1.1 → x.1.2.1 = y.1.2.1 → x.1.2.2 < y.1.2.2)
        (drainQueue q)) := by
  have hloop := addBatchLoop_spec times hmono
    ("batch_" ++ toString ⌊times 0⌋) settings priority files st.queue 0 hpast
  have hjob : addBatchJob st files settings priority times =
      { queue := st.queue ++ batchEntries times ("batch_" ++ toString ⌊times 0⌋)
          settings priority files 0,
        total_job_count := st.total_job_count +
          (files.filter
            (fun f => determineFileType f.suffix ≠ FileType.UNKNOWN)).length,
        success := true,
        jobs_added :=
          (files.filter
            (fun f => determineFileType f.suffix ≠ FileType.UNKNOWN)).length } := by
    rw [Nat.zero_add] at hloop
    unfold addBatchJob
    rw [hloop]
    exact rfl
  rw [hjob]
  refine ⟨rfl, rfl, rfl, rfl, ⟨rfl, rfl, rfl, rfl⟩, ?_, ?_, ?_⟩
  · rw [List.pairwise_append]
    refine ⟨hdistinct,
      batchEntries_pairwise times hmono _ settings priority files 0, ?_⟩
    intro a ha b hb
    calc a.1.2.2 < times 1 := hpast a ha
      _ ≤ b.1.2.2 := batchEntries_created_ge times hmono _ settings priority
          files 0 b hb
  · exact drainQueue_sorted_perm
  · intro q hne
    obtain ⟨hperm, hsort⟩ := drainQueue_sorted_perm q
    have hne' : List.Pairwise (fun x y => x.1.2.2 ≠ y.1.2.2) (drainQueue q) :=
      (hperm.pairwise_iff (fun hab => Ne.symm hab)).mpr hne
    have hcomb := hne'.and hsort
    refine hcomb.imp ?_
    rintro a b ⟨hab, hle⟩ h1 h2
    rcases hle with hlt | ⟨_, hlt | ⟨_, hle2⟩⟩
    · exact absurd h1 hlt.ne
    · exact absurd h2 hlt.ne
    · exact lt_of_le_of_ne hle2 hab

/-- Witness for C5's amended theorem: two image jobs enqueued with a
strictly increasing clock succeed and both are counted. -/
theorem C5_queue_ordering_witness :
    (addBatchJob {} [batchFileA, batchFileB] [] .NORMAL (fun k => (k : ℚ))).success
        = true ∧
    (addBatchJob {} [batchFileA, batchFileB] [] .NORMAL
        (fun k => (k : ℚ))).total_job_count = 2 := by
  have h := C5_queue_ordering {} [batchFileA, batchFileB] [] .NORMAL
    (fun k => (k : ℚ)) (fun a b hab => by show (a : ℚ) < b; exact_mod_cast hab)
    (by intro e he; simp at he) (by simp)
  refine ⟨h.1, ?_⟩
  rw [h.2.2.2.1]
  decide

/-- C5 counterexample: with the wall clock returning the same timestamp for
both jobs (equal `time.time()` readings, as happens within the clock's
resolution), two jobs of equal priority and equal estimate collide on the
full ordering key; the second `heappush` then compares the unorderable
`ProcessingJob` payloads and raises, so `add_batch_job` reports failure and
counts nothing — the claimed FIFO tie-break on enqueue order never
happens. -/
theorem C5_tied_timestamps_counterexample :
    (addBatchJob {} [batchFileA, batchFileB] [] .NORMAL (fun _ => 100)).success
        = false ∧
    (addBatchJob {} [batchFileA, batchFileB] [] .NORMAL
        (fun _ => 100)).total_job_count = 0 := by
  exact ⟨rfl, rfl⟩

/-! ### Settings-snapshot theorems (C3) -/

theorem find?_append_none {α : Type} (p : α → Bool) :
    ∀ {l₁ : List α} (l₂ : List α), l₁.find? p = none →
      (l₁ ++ l₂).find? p = l₂.find? p := by
  intro l₁
  induction l₁ with
  | nil => intro l₂ _; rfl
  | cons x l ih =>
    intro l₂ hnone
    have hx : ¬(p x = true) := by
      intro hx
      rw [List.find?_cons_of_pos _ hx] at hnone
      exact Option.some_ne_none _ hnone
    rw [List.find?_cons_of_neg _ hx] at hnone
    rw [List.cons_append, List.find?_cons_of_neg _ hx]
    exact ih l₂ hnone

theorem find?_setKey_map {a b : Nat} (k : String) (v : PyVal) :
    ∀ l : List (Nat × PyDict), b ≠ a →
    (l.map (fun p => if p.1 = a then (p.1, dictSet p.2 k v) else p)).find?
        (fun p => p.1 = b) =
      l.find? (fun p => p.1 = b)
  | [], _ => by simp
  | p :: l, hab => by
    by_cases hpb : p.1 = b
    · have hpa : p.1 ≠ a := by rw [hpb]; exact hab
      rw [List.map_cons, if_neg hpa,
        List.find?_cons_of_pos _ (by simpa using hpb),
        List.find?_cons_of_pos _ (by simpa using hpb)]
    · have h1 : ¬((if p.1 = a then (p.1, dictSet p.2 k v) else p).1 = b) := by
        split_ifs <;> simpa using hpb
      rw [List.map_cons,
        List.find?_cons_of_neg _ (by simpa using h1),
        List.find?_cons_of_neg _ (by simpa using hpb)]
      exact find?_setKey_map k v l hab

/-- Mutating the dictionary at one address leaves every other address's
contents unchanged. -/
theorem heapLookup_setKey_ne {h : Heap} {a b : Nat} {k : String} {v : PyVal}
    (hab : b ≠ a) : (h.setKey a k v).lookup b = h.lookup b := by
  unfold Heap.setKey Heap.lookup
  rw [find?_setKey_map k v h.store hab]

/-- The freshly allocated snapshot holds the caller's bindings. -/
theorem lookup_settingsSnapshot_fresh {h : Heap} (caller : Nat) {fresh : Nat}
    (hfresh : ∀ p ∈ h.store, p.1 ≠ fresh) :
    (settingsSnapshot h caller fresh).lookup fresh =
      some ((h.lookup caller).getD []) := by
  unfold settingsSnapshot Heap.lookup
  have h1 : h.store.find? (fun p => p.1 = fresh) = none :=
    List.find?_eq_none.mpr (fun x hx => by simpa using hfresh x hx)
  rw [find?_append_none _ _ h1]
  simp

/-- C3 amended: `settings.copy()` is an independent TOP-LEVEL snapshot —
the snapshot starts with exactly the caller's top-level bindings, and any
later mutation of the caller's own dictionary leaves every top-level binding
of the queued job's snapshot unchanged; only nested mutable values remain
shared through references. -/
theorem C3_toplevel_snapshot (h : Heap) (caller fresh : Nat) (k k' : String)
    (v : PyVal) (hfresh : ∀ p ∈ h.store, p.1 ≠ fresh) (hne : fresh ≠ caller) :
    readTop (settingsSnapshot h caller fresh) fresh k' =
      dictGet ((h.lookup caller).getD []) k' ∧
    readTop ((settingsSnapshot h caller fresh).setKey caller k v) fresh k' =
      readTop (settingsSnapshot h caller fresh) fresh k' := by
  have hl := lookup_settingsSnapshot_fresh caller hfresh
  constructor
  · unfold readTop
    rw [hl]
    rfl
  · unfold readTop
    rw [heapLookup_setKey_ne hne]

/-- Witness for C3's amended theorem at the concrete heap: replacing the
caller's `event_info` binding after the snapshot leaves the job's own
`event_info` binding (the shared reference) in place. -/
theorem C3_toplevel_snapshot_witness :
    readTop ((settingsSnapshot c3Heap 0 2).setKey 0 "event_info" (.str "replaced"))
        2 "event_info" = some (.ref 1) := by
  have hth := C3_toplevel_snapshot c3Heap 0 2 "event_info" "event_info"
    (.str "replaced") (by decide) (by decide)
  rw [hth.2, hth.1]
  rfl

/-- C3 counterexample: the snapshot is shallow.  At this concrete heap the
nested `event_info` dictionary is reachable from the caller's settings;
mutating it AFTER the enqueue-time copy changes what the queued job reads
through its snapshot, so the snapshot is neither independent of nested
mutation nor immutable. -/
theorem C3_shallow_copy_counterexample :
    readNested c3Heap 0 "event_info" "x" = some (.str "old") ∧
    readNested (settingsSnapshot c3Heap 0 2) 2 "event_info" "x" =
      some (.str "old") ∧
    readNested ((settingsSnapshot c3Heap 0 2).setKey 1 "x" (.str "new"))
        2 "event_info" "x" = some (.str "new") ∧
    readNested ((settingsSnapshot c3Heap 0 2).setKey 1 "x" (.str "new"))
        2 "event_info" "x" ≠
      readNested (settingsSnapshot c3Heap 0 2) 2 "event_info" "x" := by
  refine ⟨rfl, rfl, rfl, by decide⟩

/-- C7: filename sanitization is idempotent — sanitizing an already
sanitized string returns it unchanged, for every input string. -/
theorem C7_sanitize_idempotent (x : String) :
    sanitizeFilename (sanitizeFilename x) = sanitizeFilename x := by
  have h : ∀ l : List Char, Sanitized l →
      sanitizeFilename (String.mk l) = String.mk l := by
    intro l hl
    show String.mk (sanitizeChars (String.mk l).data) = String.mk l
    exact congrArg String.mk (sanitizeChars_fix hl)
  rw [show sanitizeFilename x = String.mk (sanitizeChars x.data) from rfl]
  exact h _ (sanitizeChars_sanitized x.data)

/-! ### Decimal-digit and fallback-filename lemmas (for `generate_filename`) -/

theorem digitChar_lt_ten : ∀ k < 10, Nat.digitChar k ∈ "0123456789".data := by
  decide

theorem toDigitsCore_chars (f : Nat) : ∀ (n : Nat) (ds : List Char),
    (∀ c ∈ ds, c ∈ "0123456789".data) →
    ∀ c ∈ Nat.toDigitsCore 10 f n ds, c ∈ "0123456789".data := by
  induction f with
  | zero =>
    intro n ds hds c hc
    unfold Nat.toDigitsCore at hc
    exact hds c hc
  | succ f ih =>
    intro n ds hds c hc
    unfold Nat.toDigitsCore at hc
    dsimp only at hc
    by_cases h : n / 10 = 0
    · rw [if_pos h] at hc
      rcases List.mem_cons.mp hc with h' | h'
      · exact h' ▸ digitChar_lt_ten _ (Nat.mod_lt _ (by norm_num))
      · exact hds c h'
    · rw [if_neg h] at hc
      refine ih _ _ ?_ c hc
      intro c' hc'
      rcases List.mem_cons.mp hc' with h' | h'
      · exact h' ▸ digitChar_lt_ten _ (Nat.mod_lt _ (by norm_num))
      · exact hds c' h'

theorem toDigitsCore_append (f : Nat) : ∀ (n : Nat) (ds : List Char),
    ∃ l, Nat.toDigitsCore 10 f n ds = l ++ ds := by
  induction f with
  | zero =>
    intro n ds
    exact ⟨[], by unfold Nat.toDigitsCore; rfl⟩
  | succ f ih =>
    intro n ds
    unfold Nat.toDigitsCore
    dsimp only
    by_cases h : n / 10 = 0
    · rw [if_pos h]
      exact ⟨[Nat.digitChar (n % 10)], rfl⟩
    · rw [if_neg h]
      obtain ⟨l, hl⟩ := ih (n / 10) (Nat.digitChar (n % 10) :: ds)
      exact ⟨l ++ [Nat.digitChar (n % 10)], by rw [hl]; simp⟩

theorem toString_nat_chars (n : Nat) :
    ∀ c ∈ (toString n).data, c ∈ "0123456789".data := by
  intro c hc
  have hc' : c ∈ Nat.toDigitsCore 10 (n + 1) n [] := hc
  exact toDigitsCore_chars (n + 1) n [] (by simp) c hc'

theorem toString_nat_ne_nil (n : Nat) : (toString n).data ≠ [] := by
  have h : (toString n).data = Nat.toDigitsCore 10 (n + 1) n [] := rfl
  rw [h]
  unfold Nat.toDigitsCore
  dsimp only
  by_cases h10 : n / 10 = 0
  · rw [if_pos h10]
    simp
  · rw [if_neg h10]
    obtain ⟨l, hl⟩ := toDigitsCore_append n (n / 10) [Nat.digitChar (n % 10)]
    rw [hl]
    simp

theorem mem_of_getLast? {α : Type} {l : List α} {a : α}
    (h : l.getLast? = some a) : a ∈ l := by
  induction l with
  | nil => simp at h
  | cons x xs ih =>
    cases xs with
    | nil =>
      simp at h
      simp [h]
    | cons y ys =>
      rw [List.getLast?_cons_cons] at h
      exact List.mem_cons_of_mem x (ih h)

theorem digit_clean : ∀ c ∈ "0123456789".data, CleanChar c ∧ c ≠ '_' := by
  decide

theorem hasUU_all_not_underscore : ∀ (p : List Char), (∀ c ∈ p, c ≠ '_') →
    hasUU p = false
  | [], _ => rfl
  | [_], _ => rfl
  | c1 :: c2 :: rest, h => by
    unfold hasUU
    rw [if_neg (fun hx => h c1 (by simp) hx.1)]
    exact hasUU_all_not_underscore (c2 :: rest) (fun c hc => h c (by simp [hc]))

theorem hasUU_underscore_cons (p : List Char) (h : ∀ c ∈ p, c ≠ '_') :
    hasUU ('_' :: p) = false := by
  cases p with
  | nil => rfl
  | cons c rest =>
    unfold hasUU
    rw [if_neg (fun hx => h c (by simp) hx.2)]
    exact hasUU_all_not_underscore (c :: rest) h

theorem pad3_chars (k : Nat) : ∀ c ∈ (pad3 k).data, c ∈ "0123456789".data := by
  intro c hc
  have hp : (pad3 k).data =
      List.replicate (3 - (toString k).length) '0' ++ (toString k).data := rfl
  rw [hp] at hc
  rcases List.mem_append.mp hc with h | h
  · rw [List.eq_of_mem_replicate h]
    decide
  · exact toString_nat_chars k c h

theorem pad3_ne_nil (k : Nat) : (pad3 k).data ≠ [] := by
  have hp : (pad3 k).data =
      List.replicate (3 - (toString k).length) '0' ++ (toString k).data := rfl
  rw [hp]
  intro h
  exact toString_nat_ne_nil k (List.append_eq_nil.mp h).2

/-- The exception-path fallback of `generate_filename` has the sanitizer's
fixpoint shape whenever the sequence number's decimal representation keeps
its total length within the 200-character cap. -/
theorem fallback_sanitized (seq : Option Nat)
    (hlen : (toString (seqOrOne seq)).length ≤ 189) :
    Sanitized ("media_file_".data ++ (pad3 (seqOrOne seq)).data) := by
  have hpd : ∀ c ∈ (pad3 (seqOrOne seq)).data, c ∈ "0123456789".data :=
    pad3_chars (seqOrOne seq)
  have hpu : ∀ c ∈ (pad3 (seqOrOne seq)).data, c ≠ '_' :=
    fun c hc => (digit_clean c (hpd c hc)).2
  refine ⟨?_, ?_, ?_, ?_, ?_, ?_⟩
  · intro c hc
    have hm : ∀ c ∈ "media_file_".data, CleanChar c := by decide
    rcases List.mem_append.mp hc with h | h
    · exact hm c h
    · exact (digit_clean c (hpd c h)).1
  · show hasUU ('_' :: (pad3 (seqOrOne seq)).data) = false
    exact hasUU_underscore_cons _ hpu
  · intro h
    have h' : (some 'm' : Option Char) = some '_' := h
    simp at h'
  · rw [List.getLast?_append]
    cases hp : (pad3 (seqOrOne seq)).data.getLast? with
    | none => exact absurd (List.getLast?_eq_none_iff.mp hp) (pad3_ne_nil _)
    | some a =>
      intro h
      have ha : a = '_' := by simpa using h
      exact hpu a (mem_of_getLast? hp) ha
  · rw [List.length_append]
    have h1 : ("media_file_".data).length = 11 := by decide
    have h2 : (pad3 (seqOrOne seq)).data.length =
        (3 - (toString (seqOrOne seq)).length) + (toString (seqOrOne seq)).length := by
      show (List.replicate (3 - (toString (seqOrOne seq)).length) '0' ++
        (toString (seqOrOne seq)).data).length = _
      rw [List.length_append, List.length_replicate]
      rfl
    rw [h1, h2]
    omega
  · simp

/-- C8 counterexample: (i) `sanitize_filename` keeps a trailing dot
(`"a."` maps to `"a."`), while the claimed step list — which includes a
"strip trailing dots" step — yields `"a"`; (ii) sanitization is not applied
last in EVERY filename generation: the exception path of
`generate_filename` returns its fallback unsanitized, and for a 201-digit
sequence number that fallback is 212 characters long — not a fixpoint of
`sanitize_filename`, which would have truncated it to 200 characters, so no
sanitization can have been applied on that path. -/
theorem C8_unsanitized_path_counterexample :
    (sanitizeFilename "a." = "a." ∧ sanitizeSpec "a." = "a" ∧
      sanitizeFilename "a." ≠ sanitizeSpec "a.") ∧
    sanitizeFilename (generateFilename (.error ()) (some (10 ^ 200)))
      ≠ generateFilename (.error ()) (some (10 ^ 200)) := by
  refine ⟨⟨by decide, by decide, by decide⟩, ?_⟩
  set_option maxRecDepth 10000 in decide

/-- C8 amended: on the successful path sanitization is applied last —
`generate_filename` returns exactly `sanitize_filename` of the substituted
template — and the sanitizer performs exactly the claimed step list with
the "strip trailing dots" step removed; the exception path's fallback is
returned without sanitization, and happens to be a fixpoint of the
sanitizer only while the sequence number's decimal representation (at most
189 digits) keeps the fallback within the 200-character cap. -/
theorem C8_sanitize_last_and_steps (seq : Option Nat) (e : Unit) (s : String) :
    generateFilename (.ok s) seq = sanitizeFilename s ∧
    sanitizeFilename s = sanitizeSpecNoDots s ∧
    ((toString (seqOrOne seq)).length ≤ 189 →
      sanitizeFilename (generateFilename (.error e) seq) =
        generateFilename (.error e) seq) := by
  refine ⟨rfl, ?_, ?_⟩
  · unfold sanitizeFilename sanitizeSpecNoDots
    apply congrArg String.mk
    unfold sanitizeChars sanitizeSpecNoDotsChars
    rw [replaceStage_eq_map, specReplace_eq_map, collapseUnderscores_eq_squeeze]
  · intro hlen
    have hfix := sanitizeChars_fix (fallback_sanitized seq hlen)
    have hdata : (("media_file_" : String) ++ pad3 (seqOrOne seq)).data =
        "media_file_".data ++ (pad3 (seqOrOne seq)).data :=
      String.data_append _ _
    show String.mk
        (sanitizeChars (("media_file_" ++ pad3 (seqOrOne seq) : String)).data) =
      "media_file_" ++ pad3 (seqOrOne seq)
    rw [hdata, hfix]
    exact String.ext hdata.symm

/-- Witness for C8's amended theorem at concrete inputs: a substituted
template is sanitized last, and the in-cap fallback for sequence number 7
is left unchanged by the sanitizer. -/
theorem C8_sanitize_last_and_steps_witness :
    generateFilename (Except.ok "a b") (some 7) = sanitizeFilename "a b" ∧
    (toString (seqOrOne (some 7))).length ≤ 189 ∧
    sanitizeFilename (generateFilename (Except.error ()) (some 7)) =
      generateFilename (Except.error ()) (some 7) :=
  ⟨(C8_sanitize_last_and_steps (some 7) () "a b").1, by decide,
   (C8_sanitize_last_and_steps (some 7) () "a b").2.2 (by decide)⟩

/-! ### Scan-loop lemmas -/

theorem scanStep_foldl_files (P V : List String) (entries : List DirEntry)
    (acc : List MediaFile × ScanStats) :
    (entries.foldl (scanStep P V) acc).1 =
      acc.1 ++ (entries.filter (·.isFile)).filterMap
        (fun e => analyzeFile P V e.file) := by
  induction entries generalizing acc with
  | nil => simp
  | cons e rest ih =>
    rw [List.foldl_cons, ih]
    by_cases hf : e.isFile
    · cases ha : analyzeFile P V e.file <;>
        simp [scanStep, hf, ha, List.filter_cons]
    · simp [scanStep, hf, List.filter_cons]

theorem scanStep_foldl_errors (P V : List String) (entries : List DirEntry)
    (acc : List MediaFile × ScanStats) :
    (entries.foldl (scanStep P V) acc).2.errors = acc.2.errors := by
  induction entries generalizing acc with
  | nil => rfl
  | cons e rest ih =>
    rw [List.foldl_cons, ih]
    by_cases hf : e.isFile
    · cases ha : analyzeFile P V e.file <;> simp [scanStep, hf, ha]
    · simp [scanStep, hf]

theorem scanStep_foldl_unsupported (P V : List String) (entries : List DirEntry)
    (acc : List MediaFile × ScanStats) :
    (entries.foldl (scanStep P V) acc).2.unsupported_files =
      acc.2.unsupported_files +
        (entries.filter (·.isFile)).countP
          (fun e => (analyzeFile P V e.file).isNone) := by
  induction entries generalizing acc with
  | nil => simp
  | cons e rest ih =>
    rw [List.foldl_cons, ih]
    by_cases hf : e.isFile
    · cases ha : analyzeFile P V e.file <;>
        (simp [scanStep, hf, ha, List.filter_cons, List.countP_cons]; try omega)
    · simp [scanStep, hf, List.filter_cons]

/-- C1 (amended): `scan_directory` raises exactly when the root is missing
or not a directory; on every successful scan the returned file list is the
list of successfully analyzed media files in walk order.  A file that
throws during analysis is swallowed by `_analyze_file`'s own blanket
`except` (which returns `None`): the file is dropped and counted as
unsupported, indistinguishable from an unsupported format, NO error string
is appended for it, and the scan result's error list is always empty. -/
theorem C1_scan_swallowed_failures (P V : List String) (root : ScanRoot) :
    ((∃ msg, scanDirectory P V root = .error msg) ↔
      root.pathExists = false ∨ root.isDir = false) ∧
    (∀ f : ScanFile, f.statResult = none → analyzeFile P V f = none) ∧
    (∀ r, scanDirectory P V root = .ok r →
      r.files = (root.entries.filter (·.isFile)).filterMap
          (fun e => analyzeFile P V e.file) ∧
      r.stats.errors = [] ∧
      r.stats.unsupported_files =
        (root.entries.filter (·.isFile)).countP
          (fun e => (analyzeFile P V e.file).isNone)) := by
  refine ⟨?_, ?_, ?_⟩
  · unfold scanDirectory
    split_ifs with h1 h2
    · refine iff_of_false ?_ ?_
      · rintro ⟨msg, hmsg⟩
        simp at hmsg
      · rintro (h | h) <;> simp_all
    · exact iff_of_true ⟨_, rfl⟩ (Or.inr (by simpa using h2))
    · exact iff_of_true ⟨_, rfl⟩ (Or.inl (by simpa using h1))
  · intro f hf
    unfold analyzeFile
    rw [hf]
  · intro r hr
    unfold scanDirectory at hr
    split_ifs at hr with h1 h2
    · simp only [Except.ok.injEq] at hr
      subst hr
      refine ⟨?_, ?_, ?_⟩
      · show (root.entries.foldl (scanStep P V) ([], ⟨0, 0, 0, []⟩)).1 = _
        rw [scanStep_foldl_files]
        simp
      · show (root.entries.foldl (scanStep P V) ([], ⟨0, 0, 0, []⟩)).2.errors = _
        rw [scanStep_foldl_errors]
      · show (root.entries.foldl
            (scanStep P V) ([], ⟨0, 0, 0, []⟩)).2.unsupported_files = _
        rw [scanStep_foldl_unsupported]
        exact Nat.zero_add _

/-- C1 counterexample: the concrete scan root contains `bad.jpg`, whose
`stat()` throws during analysis; `_analyze_file`'s blanket `except`
swallows the exception, so the scan SUCCEEDS with `bad.jpg` dropped and
counted as unsupported and with an EMPTY error list — no error string is
appended for it, contradicting the claimed per-file error reporting. -/
theorem C1_swallowed_exception_counterexample :
    badScan.statResult = none ∧
    analyzeFile defaultPhotoFormats defaultVideoFormats badScan = none ∧
    (scanDirectory defaultPhotoFormats defaultVideoFormats sampleRoot).map
        (fun r => (r.files.map (·.filename), r.stats.errors,
          r.stats.total_files, r.stats.media_files, r.stats.unsupported_files)) =
      Except.ok (["IMG_0001.cr2"], [], 3, 1, 2) := by
  refine ⟨rfl, rfl, rfl⟩

/-- Witness for C1's amended theorem at the concrete scan root: the
analysis failure is swallowed — the scan succeeds with an empty error list
and the failing file counted as unsupported. -/
theorem C1_scan_swallowed_failures_witness :
    (¬∃ msg, scanDirectory defaultPhotoFormats defaultVideoFormats sampleRoot
        = Except.error msg) ∧
    analyzeFile defaultPhotoFormats defaultVideoFormats badScan = none ∧
    (scanDirectory defaultPhotoFormats defaultVideoFormats sampleRoot).map
        (fun r => (r.stats.errors, r.stats.unsupported_files)) =
      Except.ok ([], 2) := by
  have h := C1_scan_swallowed_failures defaultPhotoFormats defaultVideoFormats
    sampleRoot
  refine ⟨?_, h.2.1 badScan rfl, ?_⟩
  · intro hex
    rcases h.1.mp hex with h' | h' <;> simp [sampleRoot] at h'
  · cases hscan : scanDirectory defaultPhotoFormats defaultVideoFormats sampleRoot
      with
    | error e => exact absurd (h.1.mp ⟨e, hscan⟩) (by simp [sampleRoot])
    | ok r =>
      obtain ⟨hf, he, hu⟩ := h.2.2 r hscan
      show Except.ok (r.stats.errors, r.stats.unsupported_files) = _
      rw [he, hu]
      simp only [Except.ok.injEq]
      decide

/-! ### Duplicate-group lemmas -/

theorem assocAppend_truthy {groups : List (String × List MediaFile)} {h : String}
    {fl : MediaFile}
    (hg : ∀ g ∈ groups, ∀ x ∈ g.2, ∃ hsh, x.file_hash = some hsh ∧ hsh ≠ "")
    (hfl : ∃ hsh, fl.file_hash = some hsh ∧ hsh ≠ "") :
    ∀ g ∈ assocAppend groups h fl, ∀ x ∈ g.2,
      ∃ hsh, x.file_hash = some hsh ∧ hsh ≠ "" := by
  intro g hgmem x hx
  unfold assocAppend at hgmem
  split_ifs at hgmem with hfind
  · obtain ⟨g₀, hg₀, rfl⟩ := List.mem_map.mp hgmem
    by_cases hk : g₀.1 = h
    · rw [if_pos hk] at hx
      rcases List.mem_append.mp hx with h' | h'
      · exact hg g₀ hg₀ x h'
      · simp at h'
        subst h'
        exact hfl
    · rw [if_neg hk] at hx
      exact hg g₀ hg₀ x hx
  · rcases List.mem_append.mp hgmem with h' | h'
    · exact hg g h' x hx
    · simp at h'
      subst h'
      simp at hx
      subst hx
      exact hfl

theorem foldl_groups_truthy :
    ∀ (files : List MediaFile) (groups : List (String × List MediaFile)),
    (∀ g ∈ groups, ∀ x ∈ g.2, ∃ hsh, x.file_hash = some hsh ∧ hsh ≠ "") →
    ∀ g ∈ files.foldl dupStep groups, ∀ x ∈ g.2,
      ∃ hsh, x.file_hash = some hsh ∧ hsh ≠ "" := by
  intro files
  induction files with
  | nil => intro groups hg; simpa using hg
  | cons f rest ih =>
    intro groups hg
    rw [List.foldl_cons]
    apply ih
    unfold dupStep
    cases hf : f.file_hash with
    | none => exact hg
    | some h =>
      dsimp only
      split_ifs with hne
      · exact assocAppend_truthy hg ⟨h, hf, hne⟩
      · exact hg

/-- Every member of every duplicate group was grouped under a truthy
digest: a nonempty `some` hash. -/
theorem mem_dup_group_hash {files : List MediaFile} {g : String × List MediaFile}
    (hg : g ∈ detectDuplicates files) {x : MediaFile} (hx : x ∈ g.2) :
    ∃ hsh, x.file_hash = some hsh ∧ hsh ≠ "" := by
  unfold detectDuplicates at hg
  exact foldl_groups_truthy files [] (by simp) g (List.mem_filter.mp hg).1 x hx

/-- C6 amended: when the file's bytes cannot be read while hashing, the
digest is the empty string and NO issue note is recorded (the failure is
only logged at debug level) — the analysis otherwise proceeds identically to
the readable case, the file is still returned in the scan's file list, and a
file with an empty digest never appears in any duplicate group. -/
theorem C6_unreadable_digest (P V : List String) (f : ScanFile) (d : String)
    (hfail : f.hashResult = none) :
    calculateFileHash f.hashResult = "" ∧
    analyzeFile P V f =
      (analyzeFile P V { f with hashResult := some d }).map
        (fun m => { m with file_hash := some "" }) ∧
    (∀ m, analyzeFile P V f = some m →
      m.file_hash = some "" ∧
      ∀ files g, g ∈ detectDuplicates files → m ∉ g.2) := by
  obtain ⟨ps, nm, sf, st, po, mt, hrr⟩ := f
  change hrr = none at hfail
  subst hfail
  have hrel : analyzeFile P V ⟨ps, nm, sf, st, po, mt, none⟩ =
      (analyzeFile P V ⟨ps, nm, sf, st, po, mt, some d⟩).map
        (fun m => { m with file_hash := some "" }) := by
    unfold analyzeFile
    dsimp only
    cases st with
    | none => rfl
    | some size =>
      dsimp only
      split_ifs <;> rfl
  refine ⟨rfl, hrel, ?_⟩
  intro m hm
  rw [hrel] at hm
  cases ha : analyzeFile P V ⟨ps, nm, sf, st, po, mt, some d⟩ with
  | none =>
    rw [ha] at hm
    simp at hm
  | some m' =>
    rw [ha] at hm
    have hmval : m = { m' with file_hash := some "" } := by
      injection hm with h'
      exact h'.symm
    constructor
    · rw [hmval]
    · intro files g hg hmem
      obtain ⟨hsh, hhs, hne⟩ := mem_dup_group_hash hg hmem
      rw [hmval] at hhs
      have : ("" : String) = hsh := by injection hhs
      exact hne this.symm

/-- Witness for C6's amended theorem at the concrete unreadable file: the
analysis result matches the readable analysis with the digest blanked. -/
theorem C6_unreadable_digest_witness :
    analyzeFile defaultPhotoFormats defaultVideoFormats c6File =
      (analyzeFile defaultPhotoFormats defaultVideoFormats c6FileReadable).map
        (fun m => { m with file_hash := some "" }) :=
  (C6_unreadable_digest defaultPhotoFormats defaultVideoFormats c6File
    "d41d8cd98f00b204e9800998ecf8427e" rfl).2.1

/-- C6 counterexample: at the concrete unreadable-bytes file the analysis
succeeds (the file is returned) with the empty digest, but with an EMPTY
issue list — no issue note is recorded on the `MediaFile`, contradicting
the claim. -/
theorem C6_no_issue_note_counterexample :
    (analyzeFile defaultPhotoFormats defaultVideoFormats c6File).map (·.issues)
        = some [] ∧
    (analyzeFile defaultPhotoFormats defaultVideoFormats c6File).map (·.file_hash)
        = some (some "") := by
  exact ⟨rfl, rfl⟩

/-- C2: priority assignment is a total function into {1..5} of the file's
kind and quality tier alone (hence independent of processing order), and it
follows the rule table: raw ↦ 1, high-quality video ↦ 2, high-quality
photo ↦ 3, any other video ↦ 4, everything else ↦ 5. -/
theorem C2_priority_total_table (f : MediaFile) :
    (1 ≤ calculatePriority f ∧ calculatePriority f ≤ 5) ∧
    (∀ g : MediaFile, g.media_type = f.media_type →
        g.quality_category = f.quality_category →
        calculatePriority g = calculatePriority f) ∧
    (f.media_type = "raw" → calculatePriority f = 1) ∧
    (f.media_type = "video" → f.quality_category = "high" →
        calculatePriority f = 2) ∧
    (f.media_type = "photo" → f.quality_category = "high" →
        calculatePriority f = 3) ∧
    (f.media_type = "video" → f.quality_category ≠ "high" →
        calculatePriority f = 4) ∧
    (f.media_type ≠ "raw" → f.media_type ≠ "video" →
        ¬(f.media_type = "photo" ∧ f.quality_category = "high") →
        calculatePriority f = 5) := by
  have hfun : ∀ g : MediaFile, g.media_type = f.media_type →
      g.quality_category = f.quality_category →
      calculatePriority g = calculatePriority f := by
    intro g h1 h2
    unfold calculatePriority
    rw [h1, h2]
  refine ⟨?_, hfun, ?_, ?_, ?_, ?_, ?_⟩
  · unfold calculatePriority
    split_ifs <;> omega
  · intro h1
    unfold calculatePriority
    simp [h1]
  · intro h1 h2
    unfold calculatePriority
    simp [h1, h2]
  · intro h1 h2
    unfold calculatePriority
    simp [h1, h2]
  · intro h1 h2
    unfold calculatePriority
    simp [h1, h2]
  · intro h1 h2 h3
    unfold calculatePriority
    simp [h1, h2, h3]

/-- Witness for C2 at two concrete classified files. -/
theorem C2_priority_total_table_witness :
    calculatePriority sampleRawFile = 1 ∧ calculatePriority sampleVideoStd = 4 :=
  ⟨(C2_priority_total_table sampleRawFile).2.2.1 rfl,
   (C2_priority_total_table sampleVideoStd).2.2.2.2.2.1 rfl (by decide)⟩

/-- C9: `get_processing_status` never divides by zero — the denominator
`max(total, 1)` is nonzero for every scheduler state, the reported
percentage is `(completed + failed) / max(total, 1) × 100`, and on a state
where no job was ever added the percentage is `0` rather than an error. -/
theorem C9_progress_percentage_safe (s : BatchState) :
    ((max s.total_job_count 1 : Nat) : ℚ) ≠ 0 ∧
    (getProcessingStatus s).progress_percentage =
      ((s.completed_jobs.length : ℚ) + (s.failed_jobs.length : ℚ))
        / ((max s.total_job_count 1 : Nat) : ℚ) * 100 ∧
    (s.total_job_count = 0 → s.completed_jobs = [] → s.failed_jobs = [] →
      (getProcessingStatus s).progress_percentage = 0) := by
  refine ⟨?_, rfl, ?_⟩
  · exact Nat.cast_ne_zero.mpr
      (lt_of_lt_of_le Nat.zero_lt_one (le_max_right _ _)).ne'
  · intro h1 h2 h3
    simp [getProcessingStatus, h1, h2, h3]

/-- Witness for C9 at the freshly initialized processor state. -/
theorem C9_progress_percentage_safe_witness :
    (getProcessingStatus {}).progress_percentage = 0 :=
  (C9_progress_percentage_safe {}).2.2 rfl rfl rfl

/-- C10: resolution bucketing needs both dimensions to reach a bucket's
minima, checked in the order 4K, 1080p, 720p; otherwise the literal `WxH`
string is produced; a missing or shorter-than-2 resolution yields
`"unknown"`; and in particular a 3840×1080 image is bucketed `"1080p"`. -/
theorem C10_resolution_bucketing :
    formatResolution none = "unknown" ∧
    (∀ res : List Int, res.length < 2 → formatResolution (some res) = "unknown") ∧
    (∀ (w h : Int) (rest : List Int),
      (3840 ≤ w ∧ 2160 ≤ h → formatResolution (some (w :: h :: rest)) = "4K") ∧
      (¬(3840 ≤ w ∧ 2160 ≤ h) → 1920 ≤ w ∧ 1080 ≤ h →
          formatResolution (some (w :: h :: rest)) = "1080p") ∧
      (¬(3840 ≤ w ∧ 2160 ≤ h) → ¬(1920 ≤ w ∧ 1080 ≤ h) → 1280 ≤ w ∧ 720 ≤ h →
          formatResolution (some (w :: h :: rest)) = "720p") ∧
      (¬(3840 ≤ w ∧ 2160 ≤ h) → ¬(1920 ≤ w ∧ 1080 ≤ h) → ¬(1280 ≤ w ∧ 720 ≤ h) →
          formatResolution (some (w :: h :: rest)) = s!"{w}x{h}")) ∧
    formatResolution (some [3840, 1080]) = "1080p" := by
  refine ⟨rfl, ?_, ?_, by decide⟩
  · intro res hres
    match res, hres with
    | [], _ => rfl
    | [a], _ => rfl
    | a :: b :: t, h => exact absurd h (by simp)
  · intro w h rest
    rw [formatResolution_cons]
    refine ⟨?_, ?_, ?_, ?_⟩
    · intro h1
      rw [if_pos h1]
    · intro h1 h2
      rw [if_neg h1, if_pos h2]
    · intro h1 h2 h3
      rw [if_neg h1, if_neg h2, if_pos h3]
    · intro h1 h2 h3
      rw [if_neg h1, if_neg h2, if_neg h3]

/-- Witness for C10: a 4096×2304 frame is bucketed 4K, a 1000×600 one gets
the literal string. -/
theorem C10_resolution_bucketing_witness :
    formatResolution (some [4096, 2304, 3]) = "4K" ∧
    formatResolution (some [1000, 600]) = "1000x600" :=
  ⟨(C10_resolution_bucketing.2.2.1 4096 2304 [3]).1 (by norm_num),
   (C10_resolution_bucketing.2.2.1 1000 600 []).2.2.2 (by norm_num) (by norm_num)
     (by norm_num)⟩

end SuiteE
